import Mathlib

/-!
# Verification of the Chamber ABC front end

A shallow embedding of the Chamber lexing / CST / diagnostic-parsing
pipeline (crates `chamber_lexer`, `chamber_cst`, `chamber_parser`,
`chamber_diagnostics`), with proofs of the specification claims.

Conventions of the embedding:
* Source text is a `List Char`; positions count characters (the Rust code
  counts UTF-8 bytes, which coincides on the ASCII inputs the grammar is
  about; every structural character the lexer inspects is ASCII).
* `u32` values become `Nat` (the parser only stores values below `2^32`,
  enforced inside `parseU32` exactly as Rust's `str::parse::<u32>` does);
  the `i8` octave becomes `Int`.
* Recursions that Rust writes as `while` loops over an advancing cursor
  are written either as structural recursion over the not-yet-consumed
  suffix or with an explicit fuel argument; fuel is sized so that it can
  never be exhausted on the executions the theorems talk about.
* Diagnostics keep code, severity, primary range and secondary label
  ranges; the human-readable message strings and notes carried alongside
  in Rust are formatting-only and are not modelled.
-/

namespace Chamber

/-- `chamber_text_size::TextRange`: a half-open character range.
The Rust field `end` is called `stop` here (`end` is a Lean keyword). -/
structure TextRange where
  start : Nat
  stop : Nat
deriving DecidableEq, Repr

/-- `chamber_lexer::TokenKind`.  The Rust variant `Annotation` is called
`Annot` here; everything else keeps its source name. -/
inductive TokenKind where
  | FieldLabel | Colon
  | Note | Rest | OctaveUp | OctaveDown | NoteLength
  | Sharp | Natural | Flat
  | Bar | DoubleBar | RepeatStart | RepeatEnd | ThinThickBar | ThickThinBar
  | LeftBracket | RightBracket | LeftParen | RightParen | LeftBrace | RightBrace
  | Tie | BrokenRhythm | Tuplet | Decoration
  | Text | Number | Slash
  | Whitespace | Newline | Comment | LineContinuation
  | Eof | Error
  | Annot
deriving DecidableEq, Repr

/-- `TokenKind::is_trivia`. -/
def TokenKind.isTrivia : TokenKind → Bool
  | .Whitespace | .Comment | .Newline => true
  | _ => false

/-- `chamber_lexer::Token`. -/
structure Token where
  kind : TokenKind
  range : TextRange
deriving DecidableEq, Repr

/-! ## Lexer (`chamber_lexer/src/lexer.rs`) -/

/-- Lexer state: source, cursor, and the header-mode flag `in_header`. -/
structure LexState where
  source : List Char
  pos : Nat
  inHeader : Bool
deriving Repr

/-- Advance `pos` over the suffix `rest = source.drop pos` while `p` holds.
This is the common shape of the lexer's `while let Some(c) = self.peek()`
consumption loops. -/
def scanWhileAux (p : Char → Bool) : List Char → Nat → Nat
  | [], pos => pos
  | c :: rest, pos => if p c then scanWhileAux p rest (pos + 1) else pos

/-- Position reached by consuming characters of `source` from `pos`
while `p` holds. -/
def scanWhile (p : Char → Bool) (source : List Char) (pos : Nat) : Nat :=
  scanWhileAux p (source.drop pos) pos

theorem scanWhileAux_ge (p : Char → Bool) (l : List Char) (pos : Nat) :
    pos ≤ scanWhileAux p l pos := by
  induction l generalizing pos with
  | nil => simp [scanWhileAux]
  | cons c rest ih =>
    simp only [scanWhileAux]
    split
    · exact le_trans (Nat.le_succ pos) (ih (pos + 1))
    · exact le_refl pos

theorem scanWhile_ge (p : Char → Bool) (source : List Char) (pos : Nat) :
    pos ≤ scanWhile p source pos :=
  scanWhileAux_ge p (source.drop pos) pos

theorem scanWhileAux_le (p : Char → Bool) (l : List Char) (pos : Nat) :
    scanWhileAux p l pos ≤ pos + l.length := by
  induction l generalizing pos with
  | nil => simp [scanWhileAux]
  | cons c rest ih =>
    simp only [scanWhileAux]
    split
    · exact le_trans (ih (pos + 1)) (by simp; omega)
    · simp

theorem scanWhile_le (p : Char → Bool) (source : List Char) (pos : Nat)
    (h : pos ≤ source.length) : scanWhile p source pos ≤ source.length := by
  have := scanWhileAux_le p (source.drop pos) pos
  simp only [List.length_drop] at this
  unfold scanWhile
  omega

theorem drop_eq_cons_of_getElem? {source : List Char} {pos : Nat} {c : Char}
    (h : source[pos]? = some c) :
    source.drop pos = c :: source.drop (pos + 1) := by
  have hlt : pos < source.length := by
    by_contra hge
    push_neg at hge
    simp [List.getElem?_eq_none hge] at h
  have := List.getElem_cons_drop source pos hlt
  rw [← this]
  congr 1
  simp [List.getElem?_eq_getElem hlt] at h
  exact h

/-- The scan stops when the cursor runs off the end. -/
theorem scanWhile_eq_none (p : Char → Bool) (source : List Char) (pos : Nat)
    (h : source[pos]? = none) : scanWhile p source pos = pos := by
  have : source.length ≤ pos := by
    by_contra hlt
    push_neg at hlt
    simp [List.getElem?_eq_getElem hlt] at h
  simp [scanWhile, List.drop_eq_nil_of_le this, scanWhileAux]

/-- The scan unfolds one character at a time against `source[pos]?`. -/
theorem scanWhile_eq_some (p : Char → Bool) (source : List Char) (pos : Nat)
    (c : Char) (h : source[pos]? = some c) :
    scanWhile p source pos = if p c then scanWhile p source (pos + 1) else pos := by
  simp [scanWhile, drop_eq_cons_of_getElem? h, scanWhileAux]

/-- The character at the stop position (if any) fails `p`. -/
theorem scanWhile_stop (p : Char → Bool) (source : List Char) (pos : Nat) :
    ∀ c, source[scanWhile p source pos]? = some c → p c = false := by
  generalize hm : source.length - pos = m
  induction m generalizing pos with
  | zero =>
    intro c hc
    have hge : source.length ≤ pos := by omega
    rw [scanWhile_eq_none p source pos (List.getElem?_eq_none hge)] at hc
    simp [List.getElem?_eq_none hge] at hc
  | succ m ih =>
    intro c hc
    cases h : source[pos]? with
    | none =>
      rw [scanWhile_eq_none p source pos h] at hc
      rw [hc] at h
      simp at h
    | some d =>
      rw [scanWhile_eq_some p source pos d h] at hc
      by_cases hp : p d
      · rw [if_pos hp] at hc
        have hlt : pos < source.length := by
          by_contra hge
          push_neg at hge
          simp [List.getElem?_eq_none hge] at h
        exact ih (pos + 1) (by omega) c hc
      · rw [if_neg hp] at hc
        rw [h] at hc
        injection hc with hdc
        rw [hdc] at hp
        simpa using hp

/-! ### Character classes used by the lexer -/

def isSpaceTab (c : Char) : Bool := c = ' ' || c = '\t'

def isAsciiDigit (c : Char) : Bool := '0' ≤ c && c ≤ '9'

/-- The note letters `C D E F G A B`. -/
def isUpperNote (c : Char) : Bool :=
  c = 'C' || c = 'D' || c = 'E' || c = 'F' || c = 'G' || c = 'A' || c = 'B'

/-- The note letters `c d e f g a b`. -/
def isLowerNote (c : Char) : Bool :=
  c = 'c' || c = 'd' || c = 'e' || c = 'f' || c = 'g' || c = 'a' || c = 'b'

/-- The uppercase letters that are field labels but never notes:
`H I K L M N O P Q R S T U V W X Y`. -/
def isFieldLetter (c : Char) : Bool :=
  c = 'H' || c = 'I' || c = 'K' || c = 'L' || c = 'M' || c = 'N' || c = 'O' ||
  c = 'P' || c = 'Q' || c = 'R' || c = 'S' || c = 'T' || c = 'U' || c = 'V' ||
  c = 'W' || c = 'X' || c = 'Y'

/-! ### Lookahead helpers (`has_colon_ahead` and friends)

Each Rust helper walks `&self.source[self.position..]` character by
character; here the walk is over the dropped suffix, with an unfolding
lemma recovering the one-character-at-a-time reading. -/

def hasColonAheadAux (source : List Char) : List Char → Nat → Bool
  | [], _ => false
  | c :: rest, pos =>
    if c = ':' then
      if source[pos + 1]? = some '|' then false else true
    else if isSpaceTab c then hasColonAheadAux source rest (pos + 1)
    else false

/-- `Lexer::has_colon_ahead`: a colon ahead after optional spaces/tabs,
except when that colon is directly followed by `|` (a repeat-end bar). -/
def hasColonAhead (source : List Char) (pos : Nat) : Bool :=
  hasColonAheadAux source (source.drop pos) pos

def hasDigitAheadAux : List Char → Bool
  | [] => false
  | c :: rest =>
    if isAsciiDigit c then true
    else if isSpaceTab c then hasDigitAheadAux rest
    else false

/-- `Lexer::has_digit_ahead`: a digit ahead after optional spaces/tabs. -/
def hasDigitAhead (source : List Char) (pos : Nat) : Bool :=
  hasDigitAheadAux (source.drop pos)

def hasBarAheadAux : List Char → Bool
  | [] => false
  | c :: rest =>
    if c = '|' then true
    else if isSpaceTab c then hasBarAheadAux rest
    else false

/-- `Lexer::has_bar_ahead`: a `|` ahead after optional spaces/tabs. -/
def hasBarAhead (source : List Char) (pos : Nat) : Bool :=
  hasBarAheadAux (source.drop pos)

def hasColonAheadForRepeatAux : List Char → Bool
  | [] => false
  | c :: rest =>
    if c = ':' then true
    else if isSpaceTab c then hasColonAheadForRepeatAux rest
    else false

/-- `Lexer::has_colon_ahead_for_repeat`: a `:` ahead after optional
spaces/tabs (used for `|:` repeat-start detection). -/
def hasColonAheadForRepeat (source : List Char) (pos : Nat) : Bool :=
  hasColonAheadForRepeatAux (source.drop pos)

theorem hasBarAhead_eq_some (source : List Char) (pos : Nat) (c : Char)
    (h : source[pos]? = some c) :
    hasBarAhead source pos =
      if c = '|' then true
      else if isSpaceTab c then hasBarAhead source (pos + 1)
      else false := by
  simp [hasBarAhead, drop_eq_cons_of_getElem? h, hasBarAheadAux]

theorem hasColonAheadForRepeat_eq_some (source : List Char) (pos : Nat) (c : Char)
    (h : source[pos]? = some c) :
    hasColonAheadForRepeat source pos =
      if c = ':' then true
      else if isSpaceTab c then hasColonAheadForRepeat source (pos + 1)
      else false := by
  simp [hasColonAheadForRepeat, drop_eq_cons_of_getElem? h, hasColonAheadForRepeatAux]

/-- If a bar is ahead, skipping spaces/tabs lands exactly on a `|`; this
is what lets the repeat-end branch consume the bar unconditionally. -/
theorem hasBarAhead_spec (source : List Char) (pos : Nat)
    (h : hasBarAhead source pos = true) :
    source[scanWhile isSpaceTab source pos]? = some '|' := by
  generalize hm : source.length - pos = m
  induction m generalizing pos with
  | zero =>
    have hge : source.length ≤ pos := by omega
    rw [hasBarAhead, List.drop_eq_nil_of_le hge] at h
    simp [hasBarAheadAux] at h
  | succ m ih =>
    cases hc : source[pos]? with
    | none =>
      rw [hasBarAhead, List.drop_eq_nil_of_le ?_] at h
      · simp [hasBarAheadAux] at h
      · by_contra hlt
        push_neg at hlt
        simp [List.getElem?_eq_getElem hlt] at hc
    | some c =>
      rw [hasBarAhead_eq_some source pos c hc] at h
      rw [scanWhile_eq_some isSpaceTab source pos c hc]
      by_cases hbar : c = '|'
      · have hst : isSpaceTab c = false := by rw [hbar]; rfl
        rw [hst]
        simp only [Bool.false_eq_true, if_false]
        rw [hc, hbar]
      · rw [if_neg hbar] at h
        by_cases hsp : isSpaceTab c
        · rw [if_pos hsp] at h
          rw [if_pos hsp]
          have hlt : pos < source.length := by
            by_contra hge
            push_neg at hge
            simp [List.getElem?_eq_none hge] at hc
          exact ih (pos + 1) h (by omega)
        · simp [hsp] at h

/-- If a colon is ahead (repeat-start detection), skipping spaces/tabs
lands exactly on a `:`. -/
theorem hasColonAheadForRepeat_spec (source : List Char) (pos : Nat)
    (h : hasColonAheadForRepeat source pos = true) :
    source[scanWhile isSpaceTab source pos]? = some ':' := by
  generalize hm : source.length - pos = m
  induction m generalizing pos with
  | zero =>
    have hge : source.length ≤ pos := by omega
    rw [hasColonAheadForRepeat, List.drop_eq_nil_of_le hge] at h
    simp [hasColonAheadForRepeatAux] at h
  | succ m ih =>
    cases hc : source[pos]? with
    | none =>
      rw [hasColonAheadForRepeat, List.drop_eq_nil_of_le ?_] at h
      · simp [hasColonAheadForRepeatAux] at h
      · by_contra hlt
        push_neg at hlt
        simp [List.getElem?_eq_getElem hlt] at hc
    | some c =>
      rw [hasColonAheadForRepeat_eq_some source pos c hc] at h
      rw [scanWhile_eq_some isSpaceTab source pos c hc]
      by_cases hcol : c = ':'
      · have hst : isSpaceTab c = false := by rw [hcol]; rfl
        rw [hst]
        simp only [Bool.false_eq_true, if_false]
        rw [hc, hcol]
      · rw [if_neg hcol] at h
        by_cases hsp : isSpaceTab c
        · rw [if_pos hsp] at h
          rw [if_pos hsp]
          have hlt : pos < source.length := by
            by_contra hge
            push_neg at hge
            simp [List.getElem?_eq_none hge] at hc
          exact ih (pos + 1) h (by omega)
        · simp [hsp] at h

theorem getElem?_lt {l : List Char} {i : Nat} {c : Char}
    (h : l[i]? = some c) : i < l.length := by
  by_contra hge
  push_neg at hge
  simp [List.getElem?_eq_none hge] at h

/-! ### Single-token lexing -/

/-- `Lexer::text`: consume until newline, carriage return, `%`, or `]`;
stopping at `]` also clears the header mode flag. -/
def lexText (source : List Char) (pos : Nat) (inH : Bool) :
    TokenKind × Nat × Bool :=
  let stop := scanWhile (fun c => !(c = '\n' || c = '\r' || c = '%' || c = ']')) source pos
  match source[stop]? with
  | some c => if c = ']' then (.Text, stop, false) else (.Text, stop, inH)
  | none => (.Text, stop, inH)

/-- `Lexer::decoration`: consume until the matching delimiter (consumed,
yielding a decoration token) or a line break / end of input (error). -/
def lexDecoration (source : List Char) (pos : Nat) (delim : Char) :
    TokenKind × Nat :=
  let stop := scanWhile (fun c => !(c = delim || c = '\n' || c = '\r')) source pos
  match source[stop]? with
  | some c => if c = delim then (.Decoration, stop + 1) else (.Error, stop)
  | none => (.Error, stop)

/-- `Lexer::annotation` (the token kind is called `Annot` here): consume
until a closing `"` or a line break / end of input (error). -/
def lexAnnot (source : List Char) (pos : Nat) : TokenKind × Nat :=
  let stop := scanWhile (fun c => !(c = '"' || c = '\n' || c = '\r')) source pos
  match source[stop]? with
  | some c => if c = '"' then (.Annot, stop + 1) else (.Error, stop)
  | none => (.Error, stop)

theorem lexText_ge (source : List Char) (pos : Nat) (inH : Bool) :
    pos ≤ (lexText source pos inH).2.1 := by
  unfold lexText
  dsimp only
  split
  · split <;> exact scanWhile_ge _ _ _
  · exact scanWhile_ge _ _ _

theorem lexText_le (source : List Char) (pos : Nat) (inH : Bool)
    (h : pos ≤ source.length) : (lexText source pos inH).2.1 ≤ source.length := by
  unfold lexText
  dsimp only
  split
  · split <;> exact scanWhile_le _ _ _ h
  · exact scanWhile_le _ _ _ h

theorem lexText_kind (source : List Char) (pos : Nat) (inH : Bool) :
    (lexText source pos inH).1 = .Text := by
  unfold lexText
  dsimp only
  split
  · split <;> rfl
  · rfl

theorem lexDecoration_ge (source : List Char) (pos : Nat) (delim : Char) :
    pos ≤ (lexDecoration source pos delim).2 := by
  unfold lexDecoration
  dsimp only
  split
  · split
    · exact le_trans (scanWhile_ge _ _ _) (Nat.le_succ _)
    · exact scanWhile_ge _ _ _
  · exact scanWhile_ge _ _ _

theorem lexDecoration_le (source : List Char) (pos : Nat) (delim : Char)
    (h : pos ≤ source.length) : (lexDecoration source pos delim).2 ≤ source.length := by
  unfold lexDecoration
  dsimp only
  split
  · rename_i c hc
    split
    · exact Nat.succ_le_of_lt (getElem?_lt hc)
    · exact scanWhile_le _ _ _ h
  · exact scanWhile_le _ _ _ h

theorem lexDecoration_ne_eof (source : List Char) (pos : Nat) (delim : Char) :
    (lexDecoration source pos delim).1 ≠ .Eof := by
  unfold lexDecoration
  dsimp only
  split
  · split <;> simp
  · simp

theorem lexAnnot_ge (source : List Char) (pos : Nat) :
    pos ≤ (lexAnnot source pos).2 := by
  unfold lexAnnot
  dsimp only
  split
  · split
    · exact le_trans (scanWhile_ge _ _ _) (Nat.le_succ _)
    · exact scanWhile_ge _ _ _
  · exact scanWhile_ge _ _ _

theorem lexAnnot_le (source : List Char) (pos : Nat)
    (h : pos ≤ source.length) : (lexAnnot source pos).2 ≤ source.length := by
  unfold lexAnnot
  dsimp only
  split
  · rename_i c hc
    split
    · exact Nat.succ_le_of_lt (getElem?_lt hc)
    · exact scanWhile_le _ _ _ h
  · exact scanWhile_le _ _ _ h

theorem lexAnnot_ne_eof (source : List Char) (pos : Nat) :
    (lexAnnot source pos).1 ≠ .Eof := by
  unfold lexAnnot
  dsimp only
  split
  · split <;> simp
  · simp

/-- The arms of the `match c` in `Lexer::next_token`, as a tag.  The Rust
match patterns are pairwise disjoint, so classifying the consumed
character first and dispatching on the class is the same dispatch. -/
inductive CharClass where
  | spaceTab | lineFeed | carriage | percent | backslash
  | colon | pipe | lbracket | rbracket | lparen | rparen | lbrace | rbrace
  | caret | equals | underscore | tick | comma | dash | angle | slash
  | digit | upperNote | lowerNote | restLetter | fieldLetter
  | decorationDelim | quote | other
deriving DecidableEq, Repr

/-- Classification of a consumed character, in the order (and with the
patterns) of the Rust `match` arms. -/
def classify (c : Char) : CharClass :=
  if isSpaceTab c then .spaceTab
  else if c = '\n' then .lineFeed
  else if c = '\r' then .carriage
  else if c = '%' then .percent
  else if c = '\\' then .backslash
  else if c = ':' then .colon
  else if c = '|' then .pipe
  else if c = '[' then .lbracket
  else if c = ']' then .rbracket
  else if c = '(' then .lparen
  else if c = ')' then .rparen
  else if c = '{' then .lbrace
  else if c = '}' then .rbrace
  else if c = '^' then .caret
  else if c = '=' then .equals
  else if c = '_' then .underscore
  else if c = '\'' then .tick
  else if c = ',' then .comma
  else if c = '-' then .dash
  else if c = '<' || c = '>' then .angle
  else if c = '/' then .slash
  else if isAsciiDigit c then .digit
  else if isUpperNote c then .upperNote
  else if isLowerNote c then .lowerNote
  else if c = 'z' || c = 'Z' then .restLetter
  else if isFieldLetter c then .fieldLetter
  else if c = '!' || c = '+' then .decorationDelim
  else if c = '"' then .quote
  else .other

/-- The body of `Lexer::next_token` after the initial `advance`: given the
consumed character `c` and the cursor `pos` already moved past it, return
the token kind, the cursor after the token, and the new header flag. -/
def lexTokenCore (source : List Char) (c : Char) (pos : Nat) (inH : Bool) :
    TokenKind × Nat × Bool :=
  match classify c with
  | .spaceTab => (.Whitespace, scanWhile isSpaceTab source pos, inH)
  | .lineFeed => (.Newline, pos, false)
  | .carriage =>
    if source[pos]? = some '\n' then (.Newline, pos + 1, false)
    else (.Newline, pos, false)
  | .percent => (.Comment, scanWhile (fun x => !(x = '\n' || x = '\r')) source pos, inH)
  | .backslash => (.LineContinuation, pos, inH)
  | .colon =>
    if hasBarAhead source pos then
      (.RepeatEnd, scanWhile isSpaceTab source pos + 1, inH)
    else (.Colon, pos, true)
  | .pipe =>
    if hasColonAheadForRepeat source pos then
      (.RepeatStart, scanWhile isSpaceTab source pos + 1, inH)
    else if source[pos]? = some '|' then (.DoubleBar, pos + 1, inH)
    else if source[pos]? = some ']' then (.ThinThickBar, pos + 1, inH)
    else (.Bar, pos, inH)
  | .lbracket =>
    if source[pos]? = some '|' then (.ThickThinBar, pos + 1, inH)
    else (.LeftBracket, pos, inH)
  | .rbracket => (.RightBracket, pos, inH)
  | .lparen =>
    if hasDigitAhead source pos then
      (.Tuplet, scanWhile isAsciiDigit source (scanWhile isSpaceTab source pos), inH)
    else (.LeftParen, pos, inH)
  | .rparen => (.RightParen, pos, inH)
  | .lbrace => (.LeftBrace, pos, inH)
  | .rbrace => (.RightBrace, pos, inH)
  | .caret => (.Sharp, pos, inH)
  | .equals => (.Natural, pos, inH)
  | .underscore => (.Flat, pos, inH)
  | .tick => (.OctaveUp, pos, inH)
  | .comma => (.OctaveDown, pos, inH)
  | .dash => (.Tie, pos, inH)
  | .angle => (.BrokenRhythm, scanWhile (fun x => x = c) source pos, inH)
  | .slash => (.Slash, pos, inH)
  | .digit =>
    if inH then lexText source pos inH
    else (.NoteLength, scanWhile isAsciiDigit source pos, inH)
  | .upperNote =>
    if inH then lexText source pos inH
    else if hasColonAhead source pos then (.FieldLabel, pos, inH)
    else (.Note, pos, inH)
  | .lowerNote =>
    if inH then lexText source pos inH else (.Note, pos, inH)
  | .restLetter =>
    if inH then lexText source pos inH else (.Rest, pos, inH)
  | .fieldLetter =>
    if inH then lexText source pos inH
    else if hasColonAhead source pos then (.FieldLabel, pos, inH)
    else lexText source pos inH
  | .decorationDelim =>
    if inH then lexText source pos inH
    else ((lexDecoration source pos c).1, (lexDecoration source pos c).2, inH)
  | .quote =>
    if inH then lexText source pos inH
    else ((lexAnnot source pos).1, (lexAnnot source pos).2, inH)
  | .other =>
    if inH then lexText source pos inH
    else (.Error, pos, inH)

theorem lexTokenCore_ge (source : List Char) (c : Char) (pos : Nat) (inH : Bool) :
    pos ≤ (lexTokenCore source c pos inH).2.1 := by
  unfold lexTokenCore
  cases classify c <;> dsimp only <;> (try split_ifs) <;> (try dsimp only) <;>
    first
      | exact le_refl _
      | exact Nat.le_succ _
      | exact scanWhile_ge _ _ _
      | exact le_trans (scanWhile_ge _ _ _) (Nat.le_succ _)
      | exact le_trans (scanWhile_ge _ _ _) (scanWhile_ge _ _ _)
      | exact lexText_ge _ _ _
      | exact lexDecoration_ge _ _ _
      | exact lexAnnot_ge _ _

theorem lexTokenCore_le (source : List Char) (c : Char) (pos : Nat) (inH : Bool)
    (hpos : pos ≤ source.length) :
    (lexTokenCore source c pos inH).2.1 ≤ source.length := by
  unfold lexTokenCore
  cases classify c <;> dsimp only <;> (try split_ifs) <;> (try dsimp only) <;>
    first
      | exact hpos
      | exact scanWhile_le _ _ _ hpos
      | exact scanWhile_le _ _ _ (scanWhile_le _ _ _ hpos)
      | exact Nat.succ_le_of_lt (getElem?_lt (by assumption))
      | exact Nat.succ_le_of_lt (getElem?_lt (hasBarAhead_spec _ _ (by assumption)))
      | exact Nat.succ_le_of_lt
          (getElem?_lt (hasColonAheadForRepeat_spec _ _ (by assumption)))
      | exact lexText_le _ _ _ hpos
      | exact lexDecoration_le _ _ _ hpos
      | exact lexAnnot_le _ _ hpos

theorem lexTokenCore_ne_eof (source : List Char) (c : Char) (pos : Nat) (inH : Bool) :
    (lexTokenCore source c pos inH).1 ≠ .Eof := by
  unfold lexTokenCore
  cases classify c <;> dsimp only <;> (try split_ifs) <;> (try dsimp only) <;>
    first
      | exact lexDecoration_ne_eof source pos c
      | exact lexAnnot_ne_eof source pos
      | simp [lexText_kind]

/-- `Lexer::next_token`: at end of input produce a zero-length `Eof`
token at the cursor; otherwise consume one character and dispatch. -/
def nextToken (st : LexState) : Token × LexState :=
  match st.source[st.pos]? with
  | none => (⟨.Eof, ⟨st.pos, st.pos⟩⟩, st)
  | some c =>
    let r := lexTokenCore st.source c (st.pos + 1) st.inHeader
    (⟨r.1, ⟨st.pos, r.2.1⟩⟩, ⟨st.source, r.2.1, r.2.2⟩)

theorem nextToken_source (st : LexState) : (nextToken st).2.source = st.source := by
  unfold nextToken
  cases st.source[st.pos]? <;> rfl

theorem nextToken_range (st : LexState) :
    (nextToken st).1.range = ⟨st.pos, (nextToken st).2.pos⟩ := by
  unfold nextToken
  cases st.source[st.pos]? <;> rfl

theorem nextToken_eof_iff (st : LexState) :
    (nextToken st).1.kind = .Eof ↔ st.source[st.pos]? = none := by
  unfold nextToken
  cases h : st.source[st.pos]? with
  | none => simp
  | some c =>
    simp only
    constructor
    · intro hk
      exact absurd hk (lexTokenCore_ne_eof st.source c (st.pos + 1) st.inHeader)
    · intro hn
      simp at hn

theorem nextToken_progress (st : LexState) (c : Char)
    (h : st.source[st.pos]? = some c) :
    st.pos < (nextToken st).2.pos := by
  unfold nextToken
  rw [h]
  exact lt_of_lt_of_le (Nat.lt_succ_self st.pos)
    (lexTokenCore_ge st.source c (st.pos + 1) st.inHeader)

theorem nextToken_le (st : LexState) (h : st.pos ≤ st.source.length) :
    (nextToken st).2.pos ≤ st.source.length := by
  unfold nextToken
  cases hc : st.source[st.pos]? with
  | none => exact h
  | some c =>
    have : st.pos + 1 ≤ st.source.length := Nat.succ_le_of_lt (getElem?_lt hc)
    exact lexTokenCore_le st.source c (st.pos + 1) st.inHeader this

/-- The loop body of `Lexer::tokenize`.  The fuel argument only bounds the
iteration count; `source.length + 1` is always enough (each non-`Eof`
token consumes at least one character — `nextToken_progress`). -/
def tokenizeGo : Nat → LexState → List Token
  | 0, _ => []
  | fuel + 1, st =>
    let r := nextToken st
    if r.1.kind = .Eof then [r.1]
    else r.1 :: tokenizeGo fuel r.2

theorem tokenizeGo_succ (fuel : Nat) (st : LexState) :
    tokenizeGo (fuel + 1) st =
      if (nextToken st).1.kind = .Eof then [(nextToken st).1]
      else (nextToken st).1 :: tokenizeGo fuel (nextToken st).2 := rfl

/-- `Lexer::tokenize` on a fresh lexer (`Lexer::new`). -/
def tokenize (source : List Char) : List Token :=
  tokenizeGo (source.length + 1) ⟨source, 0, false⟩

/-- Combined invariant of the token stream produced from any lexer state:
nonempty, ends in the unique `Eof` token placed at `[len, len)`, starts at
the cursor, and consecutive ranges abut. -/
theorem tokenizeGo_spec (source : List Char) : ∀ (fuel : Nat) (st : LexState),
    st.source = source → st.pos ≤ source.length →
    source.length - st.pos < fuel →
    tokenizeGo fuel st ≠ [] ∧
    (tokenizeGo fuel st).getLast? =
      some ⟨.Eof, ⟨source.length, source.length⟩⟩ ∧
    (∀ t ∈ (tokenizeGo fuel st).dropLast, t.kind ≠ .Eof) ∧
    ((tokenizeGo fuel st).head?.map (fun t => t.range.start)) = some st.pos ∧
    List.Chain' (fun a b => a.range.stop = b.range.start) (tokenizeGo fuel st) := by
  intro fuel
  induction fuel with
  | zero => intro st _ _ hlt; omega
  | succ fuel ih =>
    intro st hsrc hle hlt
    by_cases heof : (nextToken st).1.kind = .Eof
    · have hnone : st.source[st.pos]? = none := (nextToken_eof_iff st).mp heof
      have hpos : st.pos = source.length := by
        rw [hsrc] at hnone
        by_contra hne
        have hlt' : st.pos < source.length := lt_of_le_of_ne hle hne
        rw [List.getElem?_eq_getElem hlt'] at hnone
        simp at hnone
      have hval : nextToken st = (⟨.Eof, ⟨st.pos, st.pos⟩⟩, st) := by
        unfold nextToken
        rw [hnone]
      have : tokenizeGo (fuel + 1) st = [⟨.Eof, ⟨st.pos, st.pos⟩⟩] := by
        rw [tokenizeGo_succ, hval]
        simp
      rw [this, hpos]
      refine ⟨by simp, by simp, by simp, by simp, by simp⟩
    · obtain ⟨c, hc⟩ : ∃ c, st.source[st.pos]? = some c := by
        cases h : st.source[st.pos]? with
        | none => exact absurd ((nextToken_eof_iff st).mpr h) heof
        | some c => exact ⟨c, rfl⟩
      have hprog : st.pos < (nextToken st).2.pos := nextToken_progress st c hc
      have hle' : (nextToken st).2.pos ≤ source.length := by
        have := nextToken_le st (by rw [hsrc]; exact hle)
        rwa [hsrc] at this
      have hsrc' : (nextToken st).2.source = source := by
        rw [nextToken_source, hsrc]
      have ihres := ih (nextToken st).2 hsrc' hle' (by omega)
      obtain ⟨hne, hlast, hdrop, hhead, hchain⟩ := ihres
      have hstep : tokenizeGo (fuel + 1) st =
          (nextToken st).1 :: tokenizeGo fuel (nextToken st).2 := by
        rw [tokenizeGo_succ, if_neg heof]
      rw [hstep]
      obtain ⟨r, rs, hrs⟩ : ∃ r rs, tokenizeGo fuel (nextToken st).2 = r :: rs := by
        cases h : tokenizeGo fuel (nextToken st).2 with
        | nil => exact absurd h hne
        | cons r rs => exact ⟨r, rs, rfl⟩
      rw [hrs] at hlast hdrop hhead hchain ⊢
      refine ⟨by simp, ?_, ?_, ?_, ?_⟩
      · rw [List.getLast?_cons_cons]
        exact hlast
      · intro t ht
        rw [List.dropLast_cons₂] at ht
        rcases List.mem_cons.mp ht with h | h
        · rw [h]
          exact heof
        · exact hdrop t h
      · simp [nextToken_range]
      · rw [List.chain'_cons']
        constructor
        · intro b hb
          simp only [List.head?_cons, Option.mem_def, Option.some.injEq] at hb
          subst hb
          simp only [List.head?_cons, Option.map_some'] at hhead
          rw [nextToken_range]
          simp only [Option.some.injEq] at hhead
          exact hhead.symm
        · exact hchain

/-- C9: for every source string, `Lexer::tokenize` returns a nonempty
token sequence whose last token — and only the last — has kind `Eof`
(sitting at the empty range `[len, len)`), whose first token starts at
offset 0, and in which each token's start equals the previous token's
end; hence the non-`Eof` tokens exactly tile `[0, len)` and the last
non-`Eof` token ends at the source length. -/
theorem claim9_lexer_tiling (source : List Char) :
    tokenize source ≠ [] ∧
    (tokenize source).getLast? =
      some ⟨.Eof, ⟨source.length, source.length⟩⟩ ∧
    (∀ t ∈ (tokenize source).dropLast, t.kind ≠ .Eof) ∧
    ((tokenize source).head?.map (fun t => t.range.start)) = some 0 ∧
    List.Chain' (fun a b => a.range.stop = b.range.start) (tokenize source) :=
  tokenizeGo_spec source (source.length + 1) ⟨source, 0, false⟩ rfl
    (Nat.zero_le _) (by omega)

/-- Witness for C9 at the concrete source `"C|"`. -/
theorem claim9_lexer_tiling_witness :
    tokenize ("C|".toList) ≠ [] ∧
    (tokenize ("C|".toList)).getLast? = some ⟨.Eof, ⟨2, 2⟩⟩ ∧
    (∀ t ∈ (tokenize ("C|".toList)).dropLast, t.kind ≠ .Eof) :=
  ⟨(claim9_lexer_tiling ("C|".toList)).1,
   (claim9_lexer_tiling ("C|".toList)).2.1,
   (claim9_lexer_tiling ("C|".toList)).2.2.1⟩

/-! ## Syntax kinds and the lossless tree (`chamber_syntax`, `chamber_cst`)

`SyntaxKind` is called `SynKind` here. -/

inductive SynKind where
  | WHITESPACE | NEWLINE | COMMENT | LINE_CONTINUATION
  | FIELD_LABEL | COLON
  | NOTE_NAME | REST | OCTAVE_UP | OCTAVE_DOWN
  | SHARP | NATURAL | FLAT
  | BAR | DOUBLE_BAR | REPEAT_START | REPEAT_END | THIN_THICK_BAR | THICK_THIN_BAR
  | L_BRACKET | R_BRACKET | L_PAREN | R_PAREN | L_BRACE | R_BRACE
  | TIE | BROKEN_RHYTHM | TUPLET_MARKER | DECORATION | NUMBER | SLASH | TEXT
  | EOF | ERROR
  | TUNE | HEADER | HEADER_FIELD | BODY
  | NOTE | REST_NODE | CHORD | BAR_LINE | TUPLET | SLUR | GRACE_NOTES
  | BROKEN_RHYTHM_NODE | TIE_NODE | INLINE_FIELD
  | DURATION | ACCIDENTAL | DECORATION_NODE
deriving DecidableEq, Repr

/-- `TokenKind::to_syntax_kind`.  The source has no arm for the
annotation token kind (its own enum listing omits that variant); `Annot`
is mapped to `TEXT` here — no claim involves annotation tokens. -/
def TokenKind.toSynKind : TokenKind → SynKind
  | .Whitespace => .WHITESPACE
  | .Newline => .NEWLINE
  | .Comment => .COMMENT
  | .LineContinuation => .LINE_CONTINUATION
  | .FieldLabel => .FIELD_LABEL
  | .Colon => .COLON
  | .Note => .NOTE_NAME
  | .Rest => .REST
  | .OctaveUp => .OCTAVE_UP
  | .OctaveDown => .OCTAVE_DOWN
  | .NoteLength => .NUMBER
  | .Sharp => .SHARP
  | .Natural => .NATURAL
  | .Flat => .FLAT
  | .Bar => .BAR
  | .DoubleBar => .DOUBLE_BAR
  | .RepeatStart => .REPEAT_START
  | .RepeatEnd => .REPEAT_END
  | .ThinThickBar => .THIN_THICK_BAR
  | .ThickThinBar => .THICK_THIN_BAR
  | .LeftBracket => .L_BRACKET
  | .RightBracket => .R_BRACKET
  | .LeftParen => .L_PAREN
  | .RightParen => .R_PAREN
  | .LeftBrace => .L_BRACE
  | .RightBrace => .R_BRACE
  | .Tie => .TIE
  | .BrokenRhythm => .BROKEN_RHYTHM
  | .Tuplet => .TUPLET_MARKER
  | .Decoration => .DECORATION
  | .Text => .TEXT
  | .Number => .NUMBER
  | .Slash => .SLASH
  | .Eof => .EOF
  | .Error => .ERROR
  | .Annot => .TEXT

/-- `chamber_syntax::Trivia`. -/
structure Trivia where
  kind : SynKind
  range : TextRange
deriving DecidableEq, Repr

/-- `chamber_cst::CstToken`. -/
structure CstToken where
  kind : SynKind
  range : TextRange
  leadingTrivia : List Trivia
  trailingTrivia : List Trivia
deriving DecidableEq, Repr

/-- `chamber_cst::CstChild` with the `CstNode` structure inlined: a child
is either a composite node (a kind plus children) or a token. -/
inductive CstChild where
  | node (kind : SynKind) (children : List CstChild)
  | token (t : CstToken)
deriving Repr

/-- Slice of the source selected by a range (`&source[start..end]`). -/
def slice (source : List Char) (r : TextRange) : List Char :=
  (source.drop r.start).take (r.stop - r.start)

/-! ### Trivia attachment (`chamber_lexer/src/cst_lexer.rs`) -/

/-- The inner `j`-loop of `attach_trivia`: same-line trailing trivia
(whitespace/comments, terminated by and including one newline). -/
def collectTrailing : List Token → List Trivia × List Token
  | [] => ([], [])
  | t :: rest =>
    match t.kind with
    | .Whitespace | .Comment =>
      let r := collectTrailing rest
      (⟨t.kind.toSynKind, t.range⟩ :: r.1, r.2)
    | .Newline => ([⟨t.kind.toSynKind, t.range⟩], rest)
    | _ => ([], t :: rest)

/-- Main loop of `attach_trivia`: returns the built tokens and whatever
leading trivia is still pending when the tokens run out.  The fuel
argument only bounds iterations (each step consumes at least one token,
so one unit per token is always enough). -/
def attachGo : Nat → List Token → List Trivia → List CstToken × List Trivia
  | 0, _, pending => ([], pending)
  | _ + 1, [], pending => ([], pending)
  | fuel + 1, t :: rest, pending =>
    if t.kind = .Eof then attachGo fuel rest pending
    else if t.kind.isTrivia then
      attachGo fuel rest (pending ++ [⟨t.kind.toSynKind, t.range⟩])
    else
      let tr := collectTrailing rest
      let r := attachGo fuel tr.2 []
      (⟨t.kind.toSynKind, t.range, pending, tr.1⟩ :: r.1, r.2)

/-- The post-loop fixup of `attach_trivia`: leftover trivia is appended
as trailing trivia of the LAST built token — and silently dropped when
no token was built at all (`if let Some(last) = result.last_mut()`). -/
def attachFix (result : List CstToken) (pending : List Trivia) : List CstToken :=
  if pending.isEmpty then result
  else
    match result.reverse with
    | [] => result
    | last :: init =>
      ({ last with trailingTrivia := last.trailingTrivia ++ pending } :: init).reverse

/-- `chamber_lexer::tokenize_cst`. -/
def tokenizeCst (source : List Char) : List CstToken :=
  let raw := tokenize source
  let r := attachGo (raw.length + 1) raw []
  attachFix r.1 r.2

/-! ### CST parser (`chamber_parser/src/cst_parser.rs`) -/

/-- `CstParser` state. -/
structure CpState where
  tokens : List CstToken
  position : Nat
deriving Repr

def cpIsAtEnd (st : CpState) : Bool := st.tokens.length ≤ st.position

def cpCurrent (st : CpState) : Option CstToken := st.tokens[st.position]?

def cpCurrentKind (st : CpState) : Option SynKind := (cpCurrent st).map (·.kind)

def cpAdvance (st : CpState) : Option CstToken × CpState :=
  match cpCurrent st with
  | none => (none, st)
  | some t => (some t, ⟨st.tokens, st.position + 1⟩)

def cpCheck (st : CpState) (kind : SynKind) : Bool :=
  cpCurrentKind st = some kind

def cpCheckAny (st : CpState) (kinds : List SynKind) : Bool :=
  match cpCurrentKind st with
  | some k => kinds.contains k
  | none => false

def cpEat (st : CpState) (kind : SynKind) : Option CstToken × CpState :=
  if cpCheck st kind then cpAdvance st else (none, st)

/-- Collect consecutive tokens satisfying `p` (the repeated
`while self.check(..) { self.advance() }` shape). -/
def cpCollectGo (p : CstToken → Bool) : List CstToken → CpState → List CstToken × CpState
  | [], st => ([], st)
  | t :: rest, st =>
    if p t then
      let r := cpCollectGo p rest ⟨st.tokens, st.position + 1⟩
      (t :: r.1, r.2)
    else ([], st)

def cpCollectWhile (p : CstToken → Bool) (st : CpState) : List CstToken × CpState :=
  cpCollectGo p (st.tokens.drop st.position) st

/-- `CstParser::parse_duration`. -/
def cpDuration (st : CpState) : CstChild × CpState :=
  let num := cpEat st .NUMBER
  let children₁ := match num.1 with
    | some t => [CstChild.token t]
    | none => []
  let sl := cpEat num.2 .SLASH
  match sl.1 with
  | some s =>
    let den := cpEat sl.2 .NUMBER
    match den.1 with
    | some d => (.node .DURATION (children₁ ++ [.token s, .token d]), den.2)
    | none => (.node .DURATION (children₁ ++ [.token s]), den.2)
  | none => (.node .DURATION children₁, sl.2)

/-- `CstParser::parse_accidental`. -/
def cpAccidental (st : CpState) : CstChild × CpState :=
  let r := cpCollectWhile
    (fun t => t.kind = .SHARP || t.kind = .NATURAL || t.kind = .FLAT) st
  (.node .ACCIDENTAL (r.1.map .token), r.2)

/-- `CstParser::parse_note`. -/
def cpNote (st : CpState) : CstChild × CpState :=
  -- decorations before the note
  let decs := cpCollectWhile (fun t => t.kind = .DECORATION) st
  let children₀ := decs.1.map
    (fun d => CstChild.node .DECORATION_NODE [.token d])
  -- accidentals
  let (children₁, st₁) :=
    if cpCheckAny decs.2 [.SHARP, .NATURAL, .FLAT] then
      let acc := cpAccidental decs.2
      (children₀ ++ [acc.1], acc.2)
    else (children₀, decs.2)
  -- note name
  let nm := cpEat st₁ .NOTE_NAME
  let children₂ := match nm.1 with
    | some t => children₁ ++ [CstChild.token t]
    | none => children₁
  -- octave modifiers
  let octs := cpCollectWhile
    (fun t => t.kind = .OCTAVE_UP || t.kind = .OCTAVE_DOWN) nm.2
  let children₃ := children₂ ++ octs.1.map CstChild.token
  -- duration
  if cpCheckAny octs.2 [.NUMBER, .SLASH] then
    let dur := cpDuration octs.2
    (.node .NOTE (children₃ ++ [dur.1]), dur.2)
  else (.node .NOTE children₃, octs.2)

/-- `CstParser::parse_rest`. -/
def cpRest (st : CpState) : CstChild × CpState :=
  let decs := cpCollectWhile (fun t => t.kind = .DECORATION) st
  let children₀ := decs.1.map
    (fun d => CstChild.node .DECORATION_NODE [.token d])
  let r := cpEat decs.2 .REST
  let children₁ := match r.1 with
    | some t => children₀ ++ [CstChild.token t]
    | none => children₀
  if cpCheckAny r.2 [.NUMBER, .SLASH] then
    let dur := cpDuration r.2
    (.node .REST_NODE (children₁ ++ [dur.1]), dur.2)
  else (.node .REST_NODE children₁, r.2)

/-- `CstParser::parse_bar_line`. -/
def cpBarLine (st : CpState) : CstChild × CpState :=
  let r := cpAdvance st
  match r.1 with
  | some t => (.node .BAR_LINE [.token t], r.2)
  | none => (.node .BAR_LINE [], r.2)

/-- `CstParser::parse_inline_field`: bracket, raw tokens until `]`,
closing bracket. -/
def cpInlineFieldGo : List CstToken → CpState → List CstChild × CpState
  | [], st => ([], st)
  | t :: rest, st =>
    if t.kind = .R_BRACKET then ([], st)
    else
      let r := cpInlineFieldGo rest ⟨st.tokens, st.position + 1⟩
      (CstChild.token t :: r.1, r.2)

def cpInlineField (st : CpState) : CstChild × CpState :=
  let op := cpEat st .L_BRACKET
  let children₀ := match op.1 with
    | some t => [CstChild.token t]
    | none => []
  let mid := cpInlineFieldGo (op.2.tokens.drop op.2.position) op.2
  let cl := cpEat mid.2 .R_BRACKET
  match cl.1 with
  | some t => (.node .INLINE_FIELD (children₀ ++ mid.1 ++ [.token t]), cl.2)
  | none => (.node .INLINE_FIELD (children₀ ++ mid.1), cl.2)

/-- The note-collecting loop of `CstParser::parse_chord` (also used by
grace notes): notes until the closer, a non-note token, or end. -/
def cpNotesGo (closer : SynKind) : Nat → CpState → List CstChild × CpState
  | 0, st => ([], st)
  | fuel + 1, st =>
    if ¬cpIsAtEnd st ∧ ¬cpCheck st closer then
      if cpCheckAny st [.SHARP, .NATURAL, .FLAT, .NOTE_NAME] then
        let n := cpNote st
        let r := cpNotesGo closer fuel n.2
        (n.1 :: r.1, r.2)
      else ([], st)
    else ([], st)

/-- `CstParser::parse_chord`. -/
def cpChord (st : CpState) : CstChild × CpState :=
  let decs := cpCollectWhile (fun t => t.kind = .DECORATION) st
  let children₀ := decs.1.map
    (fun d => CstChild.node .DECORATION_NODE [.token d])
  let op := cpEat decs.2 .L_BRACKET
  let children₁ := match op.1 with
    | some t => children₀ ++ [CstChild.token t]
    | none => children₀
  let notes := cpNotesGo .R_BRACKET (op.2.tokens.length + 1) op.2
  let cl := cpEat notes.2 .R_BRACKET
  let children₂ := match cl.1 with
    | some t => children₁ ++ notes.1 ++ [CstChild.token t]
    | none => children₁ ++ notes.1
  if cpCheckAny cl.2 [.NUMBER, .SLASH] then
    let dur := cpDuration cl.2
    (.node .CHORD (children₂ ++ [dur.1]), dur.2)
  else (.node .CHORD children₂, cl.2)

/-- `CstParser::parse_grace_notes`. -/
def cpGraceNotes (st : CpState) : CstChild × CpState :=
  let op := cpEat st .L_BRACE
  let children₀ := match op.1 with
    | some t => [CstChild.token t]
    | none => []
  let notes := cpNotesGo .R_BRACE (op.2.tokens.length + 1) op.2
  let cl := cpEat notes.2 .R_BRACE
  match cl.1 with
  | some t => (.node .GRACE_NOTES (children₀ ++ notes.1 ++ [.token t]), cl.2)
  | none => (.node .GRACE_NOTES (children₀ ++ notes.1), cl.2)

/-- The fixed-count note loop of `CstParser::parse_tuplet`
(`let count = 3` in the source). -/
def cpTupletNotes : Nat → CpState → List CstChild × CpState
  | 0, st => ([], st)
  | n + 1, st =>
    if cpCheckAny st [.SHARP, .NATURAL, .FLAT, .NOTE_NAME] then
      let note := cpNote st
      let r := cpTupletNotes n note.2
      (note.1 :: r.1, r.2)
    else ([], st)

/-- `CstParser::parse_tuplet`. -/
def cpTuplet (st : CpState) : CstChild × CpState :=
  let mk := cpEat st .TUPLET_MARKER
  let children₀ := match mk.1 with
    | some t => [CstChild.token t]
    | none => []
  let notes := cpTupletNotes 3 mk.2
  (.node .TUPLET (children₀ ++ notes.1), notes.2)

/-- `CstParser::parse_chord_or_inline_field`: peeks at the token after
the bracket. -/
def cpChordOrInlineField (st : CpState) : CstChild × CpState :=
  let isInline :=
    match st.tokens[st.position + 1]? with
    | some t => t.kind = SynKind.FIELD_LABEL || t.kind = SynKind.TEXT
    | none => false
  if isInline then cpInlineField st else cpChord st

mutual

/-- `CstParser::parse_music_element`; `none` means the caller should
skip the token itself. -/
def cpMusicElement (fuel : Nat) (st : CpState) : Option CstChild × CpState :=
  match fuel with
  | 0 => (none, st)
  | fuel + 1 =>
    match cpCurrentKind st with
    | none => (none, st)
    | some kind =>
      match kind with
      | .SHARP | .NATURAL | .FLAT | .NOTE_NAME =>
        let r := cpNote st
        (some r.1, r.2)
      | .REST =>
        let r := cpRest st
        (some r.1, r.2)
      | .BAR | .DOUBLE_BAR | .REPEAT_START | .REPEAT_END
      | .THIN_THICK_BAR | .THICK_THIN_BAR =>
        let r := cpBarLine st
        (some r.1, r.2)
      | .L_BRACKET =>
        let r := cpChordOrInlineField st
        (some r.1, r.2)
      | .L_PAREN =>
        let r := cpSlur fuel st
        (some r.1, r.2)
      | .L_BRACE =>
        let r := cpGraceNotes st
        (some r.1, r.2)
      | .TUPLET_MARKER =>
        let r := cpTuplet st
        (some r.1, r.2)
      | .DECORATION =>
        let r := cpAdvance st
        match r.1 with
        | some t => (some (.node .DECORATION_NODE [.token t]), r.2)
        | none => (none, r.2)
      | .TIE =>
        let r := cpAdvance st
        match r.1 with
        | some t => (some (.node .TIE_NODE [.token t]), r.2)
        | none => (none, r.2)
      | .BROKEN_RHYTHM =>
        let r := cpAdvance st
        match r.1 with
        | some t => (some (.node .BROKEN_RHYTHM_NODE [.token t]), r.2)
        | none => (none, r.2)
      | _ => (none, st)
termination_by structural fuel

/-- The element loop of `CstParser::parse_slur`. -/
def cpSlurGo (fuel : Nat) (st : CpState) : List CstChild × CpState :=
  match fuel with
  | 0 => ([], st)
  | fuel + 1 =>
    if ¬cpIsAtEnd st ∧ ¬cpCheck st .R_PAREN then
      let e := cpMusicElement fuel st
      match e.1 with
      | some child =>
        let r := cpSlurGo fuel e.2
        (child :: r.1, r.2)
      | none =>
        if cpCheck e.2 .R_PAREN then ([], e.2)
        else
          let a := cpAdvance e.2
          match a.1 with
          | some t =>
            let r := cpSlurGo fuel a.2
            (CstChild.token t :: r.1, r.2)
          | none => ([], a.2)
    else ([], st)
termination_by structural fuel

/-- `CstParser::parse_slur`.  (A zero-fuel fallback returns an empty
slur node; callers always supply positive fuel.) -/
def cpSlur (fuel : Nat) (st : CpState) : CstChild × CpState :=
  match fuel with
  | 0 => (.node .SLUR [], st)
  | fuel + 1 =>
    let op := cpEat st .L_PAREN
    let children₀ := match op.1 with
      | some t => [CstChild.token t]
      | none => []
    let mid := cpSlurGo fuel op.2
    let cl := cpEat mid.2 .R_PAREN
    match cl.1 with
    | some t => (.node .SLUR (children₀ ++ mid.1 ++ [.token t]), cl.2)
    | none => (.node .SLUR (children₀ ++ mid.1), cl.2)
termination_by structural fuel

end

/-- `CstParser::parse_header_field`. -/
def cpHeaderField (st : CpState) : CstChild × CpState :=
  let lb := cpEat st .FIELD_LABEL
  let children₀ := match lb.1 with
    | some t => [CstChild.token t]
    | none => []
  let co := cpEat lb.2 .COLON
  let children₁ := match co.1 with
    | some t => children₀ ++ [CstChild.token t]
    | none => children₀
  -- field value: a single TEXT token if present
  if ¬cpIsAtEnd co.2 then
    let tx := cpEat co.2 .TEXT
    match tx.1 with
    | some t => (.node .HEADER_FIELD (children₁ ++ [.token t]), tx.2)
    | none => (.node .HEADER_FIELD children₁, tx.2)
  else (.node .HEADER_FIELD children₁, co.2)

/-- The field loop of `CstParser::parse_header`. -/
def cpHeaderGo : Nat → CpState → List CstChild × CpState
  | 0, st => ([], st)
  | fuel + 1, st =>
    if ¬cpIsAtEnd st ∧ cpCheck st .FIELD_LABEL then
      let f := cpHeaderField st
      let r := cpHeaderGo fuel f.2
      (f.1 :: r.1, r.2)
    else ([], st)

/-- `CstParser::parse_header`. -/
def cpHeader (st : CpState) : CstChild × CpState :=
  let r := cpHeaderGo (st.tokens.length + 1) st
  (.node .HEADER r.1, r.2)

/-- The element loop of `CstParser::parse_body`. -/
def cpBodyGo : Nat → CpState → List CstChild × CpState
  | 0, st => ([], st)
  | fuel + 1, st =>
    if ¬cpIsAtEnd st then
      let e := cpMusicElement (st.tokens.length + 1) st
      match e.1 with
      | some child =>
        let r := cpBodyGo fuel e.2
        (child :: r.1, r.2)
      | none =>
        let a := cpAdvance e.2
        match a.1 with
        | some t =>
          let r := cpBodyGo fuel a.2
          (CstChild.token t :: r.1, r.2)
        | none => ([], a.2)
    else ([], st)

/-- `CstParser::parse_body`. -/
def cpBody (st : CpState) : CstChild × CpState :=
  let r := cpBodyGo (st.tokens.length + 1) st
  (.node .BODY r.1, r.2)

/-- `CstParser::parse_tune`. -/
def cpTune (st : CpState) : CstChild :=
  let h := cpHeader st
  let b := cpBody h.2
  .node .TUNE [h.1, b.1]

/-- `chamber_parser::parse_cst`. -/
def parseCst (source : List Char) : CstChild :=
  cpTune ⟨tokenizeCst source, 0⟩

/-! ### CST printing (`chamber_cst/src/print.rs`) -/

/-- Text of one trivia piece. -/
def triviaText (source : List Char) (tr : Trivia) : List Char :=
  slice source tr.range

/-- `print_token`: leading trivia, the token's own text, trailing trivia. -/
def printCstToken (source : List Char) (t : CstToken) : List Char :=
  (t.leadingTrivia.map (triviaText source)).flatten ++
    slice source t.range ++
    (t.trailingTrivia.map (triviaText source)).flatten

mutual

/-- `print_child` / `print_node`: tokens print their trivia and text,
composites visit children in order. -/
def printChild (source : List Char) : CstChild → List Char
  | .token t => printCstToken source t
  | .node _ children => printChildren source children

def printChildren (source : List Char) : List CstChild → List Char
  | [] => []
  | c :: cs => printChild source c ++ printChildren source cs

end

/-- `chamber_cst::print_cst`. -/
def printCst (node : CstChild) (source : List Char) : List Char :=
  printChild source node

/-- C1: the lossless round-trip `print_cst (parse_cst s) s = s` FAILS on
the one-character source `" "`: the source consists only of trivia, so
`attach_trivia` has no significant token to attach it to and drops it
(`attachFix` with an empty token list), and printing reproduces the
empty string instead of `" "`.  This contradicts the documented
round-trip invariant, which the code otherwise establishes (see the
adjacent example-free development: sources with at least one significant
token do round-trip). -/
theorem claim1_roundtrip_fails_on_trivia_only_source :
    printCst (parseCst (" ".toList)) (" ".toList) = [] ∧
    (" ".toList : List Char) ≠ [] ∧
    tokenizeCst (" ".toList) = [] :=
  ⟨rfl, by decide, rfl⟩

/-! ## Diagnostics (`chamber_diagnostics`)

`Diagnostic` keeps code, severity, primary range and secondary label
ranges; the human-readable message strings and notes are formatting-only
and not modelled. -/

inductive Severity where
  | Error | Warning | Info
deriving DecidableEq, Repr

inductive DiagnosticCode where
  | UnexpectedCharacter
  | MissingReferenceNumber | MissingKeyField | DuplicateReferenceNumber
  | InvalidFieldOrder | InvalidMeterValue | InvalidTempo
  | InvalidUnitNoteLength | InvalidKeySignature | MissingTitle | EmptyTitle
  | EmptyReferenceNumber | InvalidReferenceNumber
  | UnclosedChord | UnclosedSlur | UnclosedGraceNotes | UnclosedInlineField
  | UnexpectedClosingBracket | UnexpectedClosingParen | UnexpectedClosingBrace
  | InvalidNoteName | InvalidAccidental | InvalidDuration
  | EmptyChord | EmptyTuplet | TupletNoteMismatch
  | EmptyTune | UnexpectedToken
  | UnusualOctave | SuspiciousDuration
deriving DecidableEq, Repr

/-- A secondary label (its message text is not modelled). -/
structure Label where
  range : TextRange
deriving DecidableEq, Repr

structure Diagnostic where
  code : DiagnosticCode
  severity : Severity
  range : TextRange
  labels : List Label
deriving DecidableEq, Repr

/-- `Diagnostic::error`. -/
def Diagnostic.error (code : DiagnosticCode) (range : TextRange) : Diagnostic :=
  ⟨code, .Error, range, []⟩

/-- `Diagnostic::warning`. -/
def Diagnostic.warning (code : DiagnosticCode) (range : TextRange) : Diagnostic :=
  ⟨code, .Warning, range, []⟩

/-- `Diagnostic::with_label`. -/
def Diagnostic.withLabel (d : Diagnostic) (range : TextRange) : Diagnostic :=
  { d with labels := d.labels ++ [⟨range⟩] }

def Diagnostic.isError (d : Diagnostic) : Bool := d.severity = .Error

def Diagnostic.isWarning (d : Diagnostic) : Bool := d.severity = .Warning

/-! ## Semantic tree (`chamber_parser/src/ast.rs`) -/

inductive Pitch where
  | C | D | E | F | G | A | B
deriving DecidableEq, Repr

/-- `Pitch::from_char`: pitch class plus base octave (0 for uppercase,
1 for lowercase).  The `i8` octave is modelled as `Int`. -/
def Pitch.fromChar (c : Char) : Option (Pitch × Int) :=
  if c = 'C' then some (.C, 0)
  else if c = 'D' then some (.D, 0)
  else if c = 'E' then some (.E, 0)
  else if c = 'F' then some (.F, 0)
  else if c = 'G' then some (.G, 0)
  else if c = 'A' then some (.A, 0)
  else if c = 'B' then some (.B, 0)
  else if c = 'c' then some (.C, 1)
  else if c = 'd' then some (.D, 1)
  else if c = 'e' then some (.E, 1)
  else if c = 'f' then some (.F, 1)
  else if c = 'g' then some (.G, 1)
  else if c = 'a' then some (.A, 1)
  else if c = 'b' then some (.B, 1)
  else none

inductive Accidental where
  | Sharp | DoubleSharp | Flat | DoubleFlat | Natural
deriving DecidableEq, Repr

/-- `ast::Duration`: an exact fraction (`u32` fields as `Nat`). -/
structure Duration where
  numerator : Nat
  denominator : Nat
deriving DecidableEq, Repr

/-- `Duration::new`. -/
def Duration.new (numerator denominator : Nat) : Duration :=
  ⟨numerator, denominator⟩

/-- `Duration::default`. -/
def Duration.defaultVal : Duration := ⟨1, 1⟩

inductive HeaderFieldKind where
  | ReferenceNumber | Title | Composer | Meter | UnitNoteLength | Tempo | Key
  | Other (c : Char)
deriving DecidableEq, Repr

/-- `HeaderFieldKind::from_char`. -/
def HeaderFieldKind.fromChar (c : Char) : HeaderFieldKind :=
  if c = 'X' then .ReferenceNumber
  else if c = 'T' then .Title
  else if c = 'C' then .Composer
  else if c = 'M' then .Meter
  else if c = 'L' then .UnitNoteLength
  else if c = 'Q' then .Tempo
  else if c = 'K' then .Key
  else .Other c

structure HeaderField where
  kind : HeaderFieldKind
  value : List Char
  range : TextRange
deriving DecidableEq, Repr

structure Header where
  fields : List HeaderField
  range : TextRange
deriving DecidableEq, Repr

structure Note where
  pitch : Pitch
  octave : Int
  accidental : Option Accidental
  duration : Option Duration
  range : TextRange
deriving DecidableEq, Repr

structure Rest where
  multiMeasure : Bool
  duration : Option Duration
  range : TextRange
deriving DecidableEq, Repr

structure Chord where
  notes : List Note
  duration : Option Duration
  range : TextRange
deriving DecidableEq, Repr

inductive BarLineKind where
  | Single | Double | RepeatStart | RepeatEnd | ThinThick | ThickThin
deriving DecidableEq, Repr

structure BarLine where
  kind : BarLineKind
  range : TextRange
deriving DecidableEq, Repr

/-- `ast::Tuplet`; the Rust field `ratio` is called `ratioVal` here. -/
structure Tuplet where
  ratioVal : Nat
  notes : List Note
  range : TextRange
deriving DecidableEq, Repr

structure GraceNotes where
  notes : List Note
  range : TextRange
deriving DecidableEq, Repr

structure BrokenRhythm where
  dottedFirst : Bool
  count : Nat
  range : TextRange
deriving DecidableEq, Repr

structure Tie where
  range : TextRange
deriving DecidableEq, Repr

structure InlineField where
  label : Char
  value : List Char
  range : TextRange
deriving DecidableEq, Repr

/-- `ast::MusicElement`.  The `Slur` struct is inlined into its variant
(elements plus range).  The parser constructs an `InlineField` variant
(`parse_music_element`), so it is included even though the `ast.rs`
listing of the enum omits it. -/
inductive MusicElement where
  | note (n : Note)
  | rest (r : Rest)
  | chord (c : Chord)
  | barLine (b : BarLine)
  | tuplet (t : Tuplet)
  | slur (elements : List MusicElement) (range : TextRange)
  | graceNotes (g : GraceNotes)
  | brokenRhythm (b : BrokenRhythm)
  | tie (t : Tie)
  | inlineField (f : InlineField)
deriving Repr

structure Body where
  elements : List MusicElement
  range : TextRange
deriving Repr

structure Tune where
  header : Header
  body : Body
  range : TextRange
deriving Repr

/-! ## Diagnostic-emitting parser (`chamber_parser/src/parser.rs`)

State: source, token buffer, cursor, and the optional diagnostic sink
(`Option (List Diagnostic)` models `Option<DiagnosticBag>`; `none` is the
sink-less `Parser::new`). -/

structure PState where
  source : List Char
  tokens : List Token
  position : Nat
  diagnostics : Option (List Diagnostic)

/-- `Parser::report`: appends when a sink is present, drops otherwise. -/
def report (st : PState) (d : Diagnostic) : PState :=
  match st.diagnostics with
  | some ds => { st with diagnostics := some (ds ++ [d]) }
  | none => st

/-- `Parser::peek`. -/
def peek (st : PState) : Option Token := st.tokens[st.position]?

/-- `Parser::check`. -/
def check (st : PState) (kind : TokenKind) : Bool :=
  match peek st with
  | some t => t.kind = kind
  | none => false

/-- `Parser::is_at_end`. -/
def isAtEnd (st : PState) : Bool :=
  st.tokens.length ≤ st.position || check st .Eof

/-- `Parser::advance`. -/
def advance (st : PState) : Option Token × PState :=
  match st.tokens[st.position]? with
  | some t => (some t, { st with position := st.position + 1 })
  | none => (none, st)

/-- `Parser::current_position`. -/
def currentPosition (st : PState) : Nat :=
  match st.tokens[st.position]? with
  | some t => t.range.start
  | none =>
    match st.tokens.getLast? with
    | some t => t.range.stop
    | none => 0

/-- `Parser::token_text` (a slice of the source). -/
def tokenText (st : PState) (t : Token) : List Char := slice st.source t.range

/-- `Parser::is_recovery_point` as a predicate on the token kind:
plain bar, double bar, repeat start/end, newline, or end-of-input.
Note the two remaining bar variants (`|]`, `[|`) are NOT included. -/
def isRecoveryKind (k : TokenKind) : Bool :=
  match k with
  | .Bar | .DoubleBar | .RepeatStart | .RepeatEnd | .Newline | .Eof => true
  | _ => false

/-- `Parser::is_recovery_point`. -/
def isRecoveryPoint (st : PState) : Bool :=
  match peek st with
  | some t => isRecoveryKind t.kind
  | none => false

/-- Index-advancing skip (the `while … { self.advance() }` shape). -/
def skipIdxGo (p : Token → Bool) : List Token → Nat → Nat
  | [], pos => pos
  | t :: rest, pos => if p t then skipIdxGo p rest (pos + 1) else pos

def skipIdx (p : Token → Bool) (tokens : List Token) (pos : Nat) : Nat :=
  skipIdxGo p (tokens.drop pos) pos

/-- `Parser::skip_trivia`. -/
def skipTrivia (st : PState) : PState :=
  { st with position := skipIdx (fun t => t.kind.isTrivia) st.tokens st.position }

/-- `Parser::skip_whitespace_only`. -/
def skipWhitespaceOnly (st : PState) : PState :=
  { st with position := skipIdx (fun t => t.kind = .Whitespace) st.tokens st.position }

/-- `Parser::skip_newlines`. -/
def skipNewlines (st : PState) : PState :=
  { st with position := skipIdx (fun t => t.kind = .Newline) st.tokens st.position }

/-- `Parser::handle_error_tokens`: report and skip error tokens one at a
time. -/
def handleErrorGo : List Token → PState → PState
  | [], st => st
  | t :: rest, st =>
    if t.kind = .Error then
      handleErrorGo rest
        (report { st with position := st.position + 1 }
          (Diagnostic.error .UnexpectedCharacter t.range))
    else st

def handleErrorTokens (st : PState) : PState :=
  handleErrorGo (st.tokens.drop st.position) st

/-- `str::trim` (the values involved are ASCII). -/
def trim (s : List Char) : List Char :=
  ((s.dropWhile Char.isWhitespace).reverse.dropWhile Char.isWhitespace).reverse

/-- `str::parse::<u32>`: optional leading `+`, at least one digit, value
below `2^32`. -/
def parseU32 (s : List Char) : Option Nat :=
  let digits := match s with
    | '+' :: rest => rest
    | _ => s
  if digits.isEmpty then none
  else if digits.all isAsciiDigit then
    let n := digits.foldl (fun acc c => acc * 10 + (c.toNat - '0'.toNat)) 0
    if n < 2 ^ 32 then some n else none
  else none

/-- `str::split_once`. -/
def splitOnce (s : List Char) (c : Char) : Option (List Char × List Char) :=
  if s.contains c then
    some (s.takeWhile (fun x => x != c), (s.dropWhile (fun x => x != c)).drop 1)
  else none

/-- `Parser::collect_until_newline` (untrimmed collection loop). -/
def collectGo : List Token → PState → List Char × PState
  | [], st => ([], st)
  | t :: rest, st =>
    match t.kind with
    | .Newline | .Eof | .Comment => ([], st)
    | _ =>
      let r := collectGo rest { st with position := st.position + 1 }
      (tokenText st t ++ r.1, r.2)

/-- `Parser::collect_until_newline` (returns the trimmed value). -/
def collectUntilNewline (st : PState) : List Char × PState :=
  let r := collectGo (st.tokens.drop st.position) st
  (trim r.1, r.2)

/-! ### Header validation (`validate_*`) -/

/-- `Parser::validate_reference_number` (H011/H012). -/
def validateReferenceNumber (st : PState) (field : HeaderField) : PState :=
  let value := trim field.value
  if value.isEmpty then
    report st (Diagnostic.error .EmptyReferenceNumber field.range)
  else if (parseU32 value).isNone then
    report st (Diagnostic.error .InvalidReferenceNumber field.range)
  else st

/-- `Parser::validate_meter` (H005). -/
def validateMeter (st : PState) (field : HeaderField) : PState :=
  let value := trim field.value
  if value.isEmpty then st
  else if value = "C".toList ∨ value = "C|".toList ∨ value = "none".toList then st
  else
    match splitOnce value '/' with
    | some (num, den) =>
      let numOk := (parseU32 (trim num)).isSome
      let denOk := match parseU32 (trim den) with
        | some d => decide (0 < d)
        | none => false
      if ¬(numOk && denOk) then
        report st (Diagnostic.error .InvalidMeterValue field.range)
      else st
    | none => report st (Diagnostic.error .InvalidMeterValue field.range)

/-- BPM validation shared by the branches of `validate_tempo`. -/
def tempoBpm (st : PState) (field : HeaderField) (bpmPart : List Char) : PState :=
  let bpm := trim bpmPart
  if (parseU32 bpm).isNone then
    report st (Diagnostic.error .InvalidTempo field.range)
  else st

/-- `Parser::validate_tempo` (H006). -/
def validateTempo (st : PState) (field : HeaderField) : PState :=
  let value := trim field.value
  if value.isEmpty then st
  else
    let value₂ := match value with
      | '"' :: rest =>
        match rest.findIdx? (fun c => c = '"') with
        | some i => trim (value.drop (i + 2))
        | none => value
      | _ => value
    if value₂.isEmpty then st
    else
      match splitOnce value₂ '=' with
      | some (notePart, bpmPart) =>
        let notePart := trim notePart
        (match splitOnce notePart '/' with
        | some (num, den) =>
          let numOk := (parseU32 (trim num)).isSome
          let denOk := match parseU32 (trim den) with
            | some d => decide (0 < d)
            | none => false
          if ¬(numOk && denOk) then
            report st (Diagnostic.error .InvalidTempo field.range)
          else tempoBpm st field bpmPart
        | none =>
          if (parseU32 notePart).isNone then
            report st (Diagnostic.error .InvalidTempo field.range)
          else tempoBpm st field bpmPart)
      | none =>
        if (parseU32 value₂).isNone then
          report st (Diagnostic.error .InvalidTempo field.range)
        else st

/-- `Parser::validate_unit_note_length` (H007). -/
def validateUnitNoteLength (st : PState) (field : HeaderField) : PState :=
  let value := trim field.value
  if value.isEmpty then st
  else
    match splitOnce value '/' with
    | some (num, den) =>
      let numOk := (parseU32 (trim num)).isSome
      let denOk := match parseU32 (trim den) with
        | some d => decide (0 < d)
        | none => false
      if ¬(numOk && denOk) then
        report st (Diagnostic.error .InvalidUnitNoteLength field.range)
      else st
    | none => report st (Diagnostic.error .InvalidUnitNoteLength field.range)

/-- `Parser::validate_key` (H008). -/
def validateKey (st : PState) (field : HeaderField) : PState :=
  let value := trim field.value
  if value.isEmpty then
    report st (Diagnostic.error .InvalidKeySignature field.range)
  else if value = "none".toList ∨ value = "HP".toList ∨ value = "Hp".toList then st
  else
    match value with
    | [] => st
    | tonic :: rest =>
      if ¬('A' ≤ tonic ∧ tonic ≤ 'G') then
        report st (Diagnostic.error .InvalidKeySignature field.range)
      else
        let rest₂ := match rest with
          | c :: rs => if c = '#' ∨ c = 'b' then rs else rest
          | [] => rest
        let mode := rest₂.map Char.toLower
        if mode.isEmpty then st
        else
          let validModes : List (List Char) :=
            ["m".toList, "min".toList, "minor".toList,
             "maj".toList, "major".toList,
             "mix".toList, "mixolydian".toList,
             "dor".toList, "dorian".toList,
             "phr".toList, "phrygian".toList,
             "lyd".toList, "lydian".toList,
             "loc".toList, "locrian".toList,
             "exp".toList]
          let modeValid := validModes.any (fun m => m.isPrefixOf mode)
          if ¬modeValid ∧ ¬(mode.all Char.isWhitespace) then
            report st (Diagnostic.error .InvalidKeySignature field.range)
          else st

/-- `Parser::validate_header` (H001–H004, H009–H010 plus per-field). -/
def validateHeader (st : PState) (header : Header) : PState :=
  let fields := header.fields
  let xFields := fields.filter (fun f => f.kind = .ReferenceNumber)
  let kField := fields.find? (fun f => f.kind = .Key)
  let tField := fields.find? (fun f => f.kind = .Title)
  let st₁ :=
    if xFields.isEmpty then
      report st (Diagnostic.error .MissingReferenceNumber header.range)
    else st
  let st₂ := match xFields with
    | first :: dups =>
      dups.foldl (fun s dup =>
        report s ((Diagnostic.error .DuplicateReferenceNumber dup.range).withLabel
          first.range)) st₁
    | [] => st₁
  let st₃ :=
    if kField.isNone then
      report st₂ (Diagnostic.error .MissingKeyField header.range)
    else st₂
  let st₄ :=
    if tField.isNone then
      report st₃ (Diagnostic.warning .MissingTitle header.range)
    else st₃
  let st₅ := fields.foldl (fun s field =>
    match field.kind with
    | .ReferenceNumber => validateReferenceNumber s field
    | .Title =>
      if (trim field.value).isEmpty then
        report s (Diagnostic.warning .EmptyTitle field.range)
      else s
    | .Meter => validateMeter s field
    | .Tempo => validateTempo s field
    | .UnitNoteLength => validateUnitNoteLength s field
    | .Key => validateKey s field
    | _ => s) st₄
  match fields.head? with
  | some first =>
    if first.kind ≠ .ReferenceNumber then
      report st₅ (Diagnostic.warning .InvalidFieldOrder first.range)
    else st₅
  | none => st₅

/-! ### Music-element parsing -/

/-- `Parser::parse_accidental`. -/
def parseAccidental (st : PState) : Option Accidental × PState :=
  match peek st with
  | none => (none, st)
  | some token =>
    match token.kind with
    | .Sharp =>
      let st₁ := (advance st).2
      if check st₁ .Sharp then (some .DoubleSharp, (advance st₁).2)
      else (some .Sharp, st₁)
    | .Flat =>
      let st₁ := (advance st).2
      if check st₁ .Flat then (some .DoubleFlat, (advance st₁).2)
      else (some .Flat, st₁)
    | .Natural => (some .Natural, (advance st).2)
    | _ => (none, st)

/-- The octave-modifier loop of `parse_note`: `'` adds one, `,` subtracts
one. -/
def octaveModsGo : List Token → Int → PState → Int × PState
  | [], o, st => (o, st)
  | t :: rest, o, st =>
    match t.kind with
    | .OctaveUp => octaveModsGo rest (o + 1) { st with position := st.position + 1 }
    | .OctaveDown => octaveModsGo rest (o - 1) { st with position := st.position + 1 }
    | _ => (o, st)

def octaveMods (st : PState) (octave : Int) : Int × PState :=
  octaveModsGo (st.tokens.drop st.position) octave st

/-- Tail of `parse_duration_internal` after numerator and denominator are
known: the W002 suspicious-duration warning (the Rust test
`numerator as f64 / denominator as f64 >= 16.0` equals the exact
comparison `16 * denominator ≤ numerator`: both operands are `u32`, the
ratio `n/d` with `d ≥ 1` differs from 16 by at least `1/d ≥ 2^-32`,
far more than a half-ulp of an IEEE double at 16, and `f64` division is
correctly rounded and monotone) and the final `Duration` value. -/
def pduFinish (st : PState) (noteStart : Option Nat)
    (durStart numerator denominator : Nat) (hasDur : Bool) :
    Option Duration × PState :=
  if hasDur then
    if 16 * denominator ≤ numerator then
      let range : TextRange := match noteStart with
        | some s => ⟨s, currentPosition st⟩
        | none => ⟨durStart, currentPosition st⟩
      (some (Duration.new numerator denominator),
       report st (Diagnostic.warning .SuspiciousDuration range))
    else (some (Duration.new numerator denominator), st)
  else (none, st)

/-- Slash-and-denominator part of `parse_duration_internal`, including
the M009 zero-denominator error (numerator kept, denominator coerced
to 1). -/
def pduSlash (st : PState) (noteStart : Option Nat)
    (durStart numerator : Nat) (hasDur : Bool) : Option Duration × PState :=
  if check st .Slash then
    let st₁ := (advance st).2
    if check st₁ .NoteLength then
      match advance st₁ with
      | (none, st₂) => (none, st₂)
      | (some token, st₂) =>
        match parseU32 (tokenText st₂ token) with
        | some d =>
          if d = 0 then
            let st₃ := report st₂
              (Diagnostic.error .InvalidDuration ⟨durStart, currentPosition st₂⟩)
            pduFinish st₃ noteStart durStart numerator 1 true
          else pduFinish st₂ noteStart durStart numerator d true
        | none => pduFinish st₂ noteStart durStart numerator 1 true
    else pduFinish st₁ noteStart durStart numerator 2 true
  else pduFinish st noteStart durStart numerator 1 hasDur

/-- `Parser::parse_duration_internal`. -/
def parseDurationInternal (st : PState) (noteStart : Option Nat) :
    Option Duration × PState :=
  let durStart := currentPosition st
  if check st .NoteLength then
    match advance st with
    | (none, st₁) => (none, st₁)
    | (some token, st₁) =>
      match parseU32 (tokenText st₁ token) with
      | some n => pduSlash st₁ noteStart durStart n true
      | none => pduSlash st₁ noteStart durStart 1 false
  else pduSlash st noteStart durStart 1 false

/-- `Parser::parse_note` (including W001 unusual octave and M007 invalid
note name). -/
def parseNote (st : PState) : Option Note × PState :=
  let start := currentPosition st
  let acc := parseAccidental st
  match advance acc.2 with
  | (none, st₁) => (none, st₁)
  | (some token, st₁) =>
    if token.kind ≠ .Note then (none, st₁)
    else
      match (tokenText st₁ token).head? with
      | none => (none, st₁)
      | some noteChar =>
        match Pitch.fromChar noteChar with
        | none =>
          (none, report st₁ (Diagnostic.error .InvalidNoteName token.range))
        | some pb =>
          let om := octaveMods st₁ pb.2
          let octave := om.1
          let st₂ := om.2
          let st₃ :=
            if octave > 3 ∨ octave < -2 then
              report st₂ (Diagnostic.warning .UnusualOctave
                ⟨start, currentPosition st₂⟩)
            else st₂
          let dur := parseDurationInternal st₃ (some start)
          (some ⟨pb.1, octave, acc.1, dur.1, ⟨start, currentPosition dur.2⟩⟩,
           dur.2)

/-- `Parser::parse_rest`. -/
def parseRest (st : PState) : Option Rest × PState :=
  let start := currentPosition st
  match advance st with
  | (none, st₁) => (none, st₁)
  | (some token, st₁) =>
    if token.kind ≠ .Rest then (none, st₁)
    else
      let multiMeasure : Bool := tokenText st₁ token = ['Z']
      let dur := parseDurationInternal st₁ none
      (some ⟨multiMeasure, dur.1, ⟨start, currentPosition dur.2⟩⟩, dur.2)

/-- `Parser::parse_bar_line`. -/
def parseBarLine (st : PState) : Option BarLine × PState :=
  match advance st with
  | (none, st₁) => (none, st₁)
  | (some token, st₁) =>
    match token.kind with
    | .Bar => (some ⟨.Single, token.range⟩, st₁)
    | .DoubleBar => (some ⟨.Double, token.range⟩, st₁)
    | .RepeatStart => (some ⟨.RepeatStart, token.range⟩, st₁)
    | .RepeatEnd => (some ⟨.RepeatEnd, token.range⟩, st₁)
    | .ThinThickBar => (some ⟨.ThinThick, token.range⟩, st₁)
    | .ThickThinBar => (some ⟨.ThickThin, token.range⟩, st₁)
    | _ => (none, st₁)

/-- `Parser::parse_broken_rhythm`. -/
def parseBrokenRhythm (st : PState) : Option BrokenRhythm × PState :=
  match advance st with
  | (none, st₁) => (none, st₁)
  | (some token, st₁) =>
    if token.kind ≠ .BrokenRhythm then (none, st₁)
    else
      let text := tokenText st₁ token
      (some ⟨text.head? = some '>', text.length, token.range⟩, st₁)

/-- `Parser::parse_tie`. -/
def parseTie (st : PState) : Option Tie × PState :=
  match advance st with
  | (none, st₁) => (none, st₁)
  | (some token, st₁) =>
    if token.kind ≠ .Tie then (none, st₁)
    else (some ⟨token.range⟩, st₁)

/-- `Parser::is_inline_field`: `[` followed (after optional whitespace
tokens) by a field label. -/
def isInlineField (st : PState) : Bool :=
  match st.tokens[st.position]? with
  | some t =>
    if t.kind = .LeftBracket then
      let i := skipIdx (fun u => u.kind = .Whitespace) st.tokens (st.position + 1)
      match st.tokens[i]? with
      | some u => u.kind = .FieldLabel
      | none => false
    else false
  | none => false

/-- The value scan of `parse_inline_field`: raw tokens until `]`, a
recovery point, or end. -/
def inlineValueGo : List Token → PState → PState
  | [], st => st
  | t :: rest, st =>
    if t.kind = .RightBracket then st
    else if isRecoveryKind t.kind then st
    else inlineValueGo rest { st with position := st.position + 1 }

/-- `Parser::parse_inline_field` (including M-style unclosed error). -/
def parseInlineField (st : PState) : Option InlineField × PState :=
  let start := currentPosition st
  match peek st with
  | none => (none, st)
  | some opTok =>
    if ¬check st .LeftBracket then (none, st)
    else
      let st₁ := (advance st).2
      let st₂ := skipWhitespaceOnly st₁
      match advance st₂ with
      | (none, st₃) => (none, st₃)
      | (some labelTok, st₃) =>
        if labelTok.kind ≠ .FieldLabel then (none, st₃)
        else
          match (tokenText st₃ labelTok).head? with
          | none => (none, st₃)
          | some label =>
            let st₄ := skipWhitespaceOnly st₃
            if ¬check st₄ .Colon then (none, st₄)
            else
              let st₅ := (advance st₄).2
              let valueStart := currentPosition st₅
              let st₆ := inlineValueGo (st₅.tokens.drop st₅.position) st₅
              let valueEnd := currentPosition st₆
              let value := slice st₆.source ⟨valueStart, valueEnd⟩
              let st₇ :=
                if check st₆ .RightBracket then (advance st₆).2
                else
                  report st₆ ((Diagnostic.error .UnclosedInlineField
                    ⟨start, currentPosition st₆⟩).withLabel opTok.range)
              (some ⟨label, trim value, ⟨start, currentPosition st₇⟩⟩, st₇)

/-- The note loop of `Parser::parse_chord`: until `]`; error tokens are
reported and skipped; a recovery point or another construct's opening
bracket ends the chord. -/
def parseChordLoop : Nat → PState → List Note → List Note × PState
  | 0, st, notes => (notes, st)
  | fuel + 1, st, notes =>
    if ¬isAtEnd st ∧ ¬check st .RightBracket then
      if check st .Error then
        parseChordLoop fuel (handleErrorTokens st) notes
      else if isRecoveryPoint st then (notes, st)
      else if check st .LeftParen ∨ check st .LeftBrace then (notes, st)
      else
        match parseNote st with
        | (some note, st₁) => parseChordLoop fuel st₁ (notes ++ [note])
        | (none, st₁) => parseChordLoop fuel (advance st₁).2 notes
    else (notes, st)

/-- `Parser::parse_chord` (M001 unclosed chord labeled at the opening
bracket, M010 empty chord). -/
def parseChord (fuel : Nat) (st : PState) : Option Chord × PState :=
  let start := currentPosition st
  match peek st with
  | none => (none, st)
  | some opTok =>
    if ¬check st .LeftBracket then (none, st)
    else
      let st₁ := (advance st).2
      let lp := parseChordLoop fuel st₁ []
      let notes := lp.1
      let stL := lp.2
      let r₂ : Bool × PState :=
        if check stL .RightBracket then (true, (advance stL).2)
        else
          (false,
           report stL ((Diagnostic.error .UnclosedChord
             ⟨start, currentPosition stL⟩).withLabel opTok.range))
      let closed := r₂.1
      let st₂ := r₂.2
      let st₃ :=
        if notes.isEmpty ∧ closed then
          report st₂ (Diagnostic.warning .EmptyChord ⟨start, currentPosition st₂⟩)
        else st₂
      let dur := parseDurationInternal st₃ none
      (some ⟨notes, dur.1, ⟨start, currentPosition dur.2⟩⟩, dur.2)

/-- The note loop of `Parser::parse_grace_notes`. -/
def parseGraceLoop : Nat → PState → List Note → List Note × PState
  | 0, st, notes => (notes, st)
  | fuel + 1, st, notes =>
    if ¬isAtEnd st ∧ ¬check st .RightBrace then
      let st₀ := handleErrorTokens st
      if isRecoveryPoint st₀ then (notes, st₀)
      else if check st₀ .LeftBracket ∨ check st₀ .LeftParen ∨ check st₀ .LeftBrace then
        (notes, st₀)
      else
        match parseNote st₀ with
        | (some note, st₁) => parseGraceLoop fuel st₁ (notes ++ [note])
        | (none, st₁) => parseGraceLoop fuel (advance st₁).2 notes
    else (notes, st)

/-- `Parser::parse_grace_notes` (M003 unclosed grace notes). -/
def parseGraceNotes (fuel : Nat) (st : PState) : Option GraceNotes × PState :=
  let start := currentPosition st
  match peek st with
  | none => (none, st)
  | some opTok =>
    if ¬check st .LeftBrace then (none, st)
    else
      let st₁ := (advance st).2
      let lp := parseGraceLoop fuel st₁ []
      let stL := lp.2
      let st₂ :=
        if check stL .RightBrace then (advance stL).2
        else
          report stL ((Diagnostic.error .UnclosedGraceNotes
            ⟨start, currentPosition stL⟩).withLabel opTok.range)
      (some ⟨lp.1, ⟨start, currentPosition st₂⟩⟩, st₂)

/-- The fixed-count note loop of `Parser::parse_tuplet`. -/
def parseTupletNotes : Nat → PState → List Note → List Note × PState
  | 0, st, notes => (notes, st)
  | k + 1, st, notes =>
    let st₀ := handleErrorTokens (skipTrivia st)
    match parseNote st₀ with
    | (some note, st₁) => parseTupletNotes k st₁ (notes ++ [note])
    | (none, st₁) => (notes, st₁)

/-- `Parser::parse_tuplet` (M011 empty tuplet, M012 count mismatch).
The Rust local `ratio` is called `ratioVal`. -/
def parseTuplet (st : PState) : Option Tuplet × PState :=
  let start := currentPosition st
  match advance st with
  | (none, st₁) => (none, st₁)
  | (some token, st₁) =>
    if token.kind ≠ .Tuplet then (none, st₁)
    else
      let text := tokenText st₁ token
      let ratioVal := (parseU32 (text.drop 1)).getD 3
      let tn := parseTupletNotes ratioVal st₁ []
      let notes := tn.1
      let st₂ := tn.2
      let st₃ :=
        if notes.length < ratioVal ∧ ¬notes.isEmpty then
          report st₂ (Diagnostic.warning .TupletNoteMismatch
            ⟨start, currentPosition st₂⟩)
        else st₂
      let st₄ :=
        if notes.isEmpty then
          report st₃ (Diagnostic.warning .EmptyTuplet ⟨start, currentPosition st₃⟩)
        else st₃
      (some ⟨ratioVal, notes, ⟨start, currentPosition st₄⟩⟩, st₄)

mutual

/-- `Parser::parse_music_element`. -/
def parseMusicElement (fuel : Nat) (st : PState) : Option MusicElement × PState :=
  match fuel with
  | 0 => (none, st)
  | fuel + 1 =>
    let st := skipTrivia st
    match peek st with
    | none => (none, st)
    | some token =>
      match token.kind with
      | .Sharp | .Flat | .Natural =>
        let r := parseNote st
        (r.1.map .note, r.2)
      | .Note =>
        let r := parseNote st
        (r.1.map .note, r.2)
      | .Rest =>
        let r := parseRest st
        (r.1.map .rest, r.2)
      | .Bar | .DoubleBar | .RepeatStart | .RepeatEnd
      | .ThinThickBar | .ThickThinBar =>
        let r := parseBarLine st
        (r.1.map .barLine, r.2)
      | .LeftBracket =>
        if isInlineField st then
          let r := parseInlineField st
          (r.1.map .inlineField, r.2)
        else
          let r := parseChord fuel st
          (r.1.map .chord, r.2)
      | .Tuplet =>
        let r := parseTuplet st
        (r.1.map .tuplet, r.2)
      | .LeftParen =>
        let r := parseSlur fuel st
        (r.1.map (fun s => MusicElement.slur s.1 s.2), r.2)
      | .LeftBrace =>
        let r := parseGraceNotes fuel st
        (r.1.map .graceNotes, r.2)
      | .BrokenRhythm =>
        let r := parseBrokenRhythm st
        (r.1.map .brokenRhythm, r.2)
      | .Tie =>
        let r := parseTie st
        (r.1.map .tie, r.2)
      | _ => (none, st)
termination_by structural fuel

/-- The element loop of `Parser::parse_slur`: until `)`; error tokens
reported; recovery points end the slur; unexpected `]`/`}` are reported
and skipped. -/
def parseSlurLoop (fuel : Nat) (st : PState) (elements : List MusicElement) :
    List MusicElement × PState :=
  match fuel with
  | 0 => (elements, st)
  | fuel + 1 =>
    if ¬isAtEnd st ∧ ¬check st .RightParen then
      let st₀ := handleErrorTokens st
      if isRecoveryPoint st₀ then (elements, st₀)
      else
        match parseMusicElement fuel st₀ with
        | (some e, st₁) => parseSlurLoop fuel st₁ (elements ++ [e])
        | (none, st₁) =>
          if check st₁ .RightBracket then
            match advance st₁ with
            | (some t, st₂) =>
              parseSlurLoop fuel
                (report st₂ (Diagnostic.error .UnexpectedClosingBracket t.range))
                elements
            | (none, st₂) => parseSlurLoop fuel st₂ elements
          else if check st₁ .RightBrace then
            match advance st₁ with
            | (some t, st₂) =>
              parseSlurLoop fuel
                (report st₂ (Diagnostic.error .UnexpectedClosingBrace t.range))
                elements
            | (none, st₂) => parseSlurLoop fuel st₂ elements
          else parseSlurLoop fuel (advance st₁).2 elements
    else (elements, st)
termination_by structural fuel

/-- `Parser::parse_slur` (M002 unclosed slur); returns the slur's
elements and range (the Rust `Slur` struct's fields).  A zero-fuel
fallback returns `none`; callers always supply positive fuel. -/
def parseSlur (fuel : Nat) (st : PState) :
    Option (List MusicElement × TextRange) × PState :=
  match fuel with
  | 0 => (none, st)
  | fuel + 1 =>
    let start := currentPosition st
    match peek st with
    | none => (none, st)
    | some opTok =>
      if ¬check st .LeftParen then (none, st)
      else
        let st₁ := (advance st).2
        let lp := parseSlurLoop fuel st₁ []
        let stL := lp.2
        let st₂ :=
          if check stL .RightParen then (advance stL).2
          else
            report stL ((Diagnostic.error .UnclosedSlur
              ⟨start, currentPosition stL⟩).withLabel opTok.range)
        (some (lp.1, ⟨start, currentPosition st₂⟩), st₂)
termination_by structural fuel

end

/-- Fuel that is ample for any parse over the given token buffer. -/
def bigFuel (st : PState) : Nat := 4 * st.tokens.length + 16

/-- The element loop of `Parser::parse_body` (with S002 misplaced field
labels and M004–M006 unexpected closers). -/
def parseBodyLoop : Nat → PState → List MusicElement → List MusicElement × PState
  | 0, st, elements => (elements, st)
  | fuel + 1, st, elements =>
    if ¬isAtEnd st then
      let st₀ := handleErrorTokens (skipTrivia st)
      if check st₀ .FieldLabel then
        match advance st₀ with
        | (some token, st₁) =>
          let st₂ := report st₁ (Diagnostic.warning .UnexpectedToken token.range)
          let st₃ := skipTrivia st₂
          let st₄ := if check st₃ .Colon then (advance st₃).2 else st₃
          let st₅ := (collectUntilNewline st₄).2
          parseBodyLoop fuel st₅ elements
        | (none, st₁) => parseBodyLoop fuel st₁ elements
      else if check st₀ .RightBracket then
        match advance st₀ with
        | (some token, st₁) =>
          parseBodyLoop fuel
            (report st₁ (Diagnostic.error .UnexpectedClosingBracket token.range))
            elements
        | (none, st₁) => parseBodyLoop fuel st₁ elements
      else if check st₀ .RightParen then
        match advance st₀ with
        | (some token, st₁) =>
          parseBodyLoop fuel
            (report st₁ (Diagnostic.error .UnexpectedClosingParen token.range))
            elements
        | (none, st₁) => parseBodyLoop fuel st₁ elements
      else if check st₀ .RightBrace then
        match advance st₀ with
        | (some token, st₁) =>
          parseBodyLoop fuel
            (report st₁ (Diagnostic.error .UnexpectedClosingBrace token.range))
            elements
        | (none, st₁) => parseBodyLoop fuel st₁ elements
      else if check st₀ .Newline then
        parseBodyLoop fuel (advance st₀).2 elements
      else
        match parseMusicElement (bigFuel st₀) st₀ with
        | (some e, st₁) => parseBodyLoop fuel st₁ (elements ++ [e])
        | (none, st₁) =>
          let st₂ :=
            if ¬isAtEnd st₁ ∧ ¬check st₁ .Eof then (advance st₁).2 else st₁
          parseBodyLoop fuel st₂ elements
    else (elements, st)

/-- `Parser::parse_body`. -/
def parseBody (st : PState) : Body × PState :=
  let start := currentPosition st
  let r := parseBodyLoop (st.tokens.length + 4) st []
  (⟨r.1, ⟨start, currentPosition r.2⟩⟩, r.2)

/-- `Parser::parse_header_field`. -/
def parseHeaderField (st : PState) : Option HeaderField × PState :=
  let start := currentPosition st
  match advance st with
  | (none, st₁) => (none, st₁)
  | (some labelToken, st₁) =>
    if labelToken.kind ≠ .FieldLabel then (none, st₁)
    else
      match (tokenText st₁ labelToken).head? with
      | none => (none, st₁)
      | some c =>
        let kind := HeaderFieldKind.fromChar c
        let st₂ := skipTrivia st₁
        if ¬check st₂ .Colon then (none, st₂)
        else
          let st₃ := (advance st₂).2
          let st₄ := skipWhitespaceOnly st₃
          let cv := collectUntilNewline st₄
          let st₅ := skipNewlines cv.2
          (some ⟨kind, cv.1, ⟨start, currentPosition st₅⟩⟩, st₅)

/-- The field loop of `Parser::parse_header`; a `K:` field ends the
header immediately (after skipping newlines). -/
def parseHeaderLoop : Nat → PState → List HeaderField → List HeaderField × PState
  | 0, st, fields => (fields, st)
  | fuel + 1, st, fields =>
    if ¬isAtEnd st then
      let st₀ := handleErrorTokens (skipTrivia st)
      if check st₀ .FieldLabel then
        match parseHeaderField st₀ with
        | (some field, st₁) =>
          if field.kind = .Key then (fields ++ [field], skipNewlines st₁)
          else parseHeaderLoop fuel st₁ (fields ++ [field])
        | (none, st₁) => parseHeaderLoop fuel st₁ fields
      else (fields, st₀)
    else (fields, st)

/-- `Parser::parse_header`. -/
def parseHeader (st : PState) : Header × PState :=
  let start := currentPosition st
  let r := parseHeaderLoop (st.tokens.length + 4) st []
  (⟨r.1, ⟨start, currentPosition r.2⟩⟩, r.2)

/-- `Parser::parse` (including the S001 empty-tune warning). -/
def parserParse (st : PState) : Tune × PState :=
  let start := currentPosition st
  let st₀ := handleErrorTokens st
  let hr := parseHeader st₀
  let st₁ := validateHeader hr.2 hr.1
  let br := parseBody st₁
  let st₂ := br.2
  let endPos := currentPosition st₂
  let st₃ :=
    if hr.1.fields.isEmpty ∧ br.1.elements.isEmpty then
      report st₂ (Diagnostic.warning .EmptyTune ⟨start, endPos⟩)
    else st₂
  (⟨hr.1, br.1, ⟨start, endPos⟩⟩, st₃)

/-- `chamber_parser::parse`: the sink-less entry point (`Parser::new`,
diagnostics `none`). -/
def parse (source : List Char) : Tune :=
  (parserParse ⟨source, tokenize source, 0, none⟩).1

/-- `chamber_parser::parse_with_diagnostics`: parse with a fresh
`DiagnosticBag` and return the tune with the collected diagnostics. -/
def parseWithDiagnostics (source : List Char) : Tune × List Diagnostic :=
  let r := parserParse ⟨source, tokenize source, 0, some []⟩
  (r.1, r.2.diagnostics.getD [])

/-! ## Claim theorems about the diagnostic-emitting parser -/

/-- C3: for the input `"[CEG\n(ABC"`, the unclosed chord contains exactly
the three notes C, E, G — none of the notes after `(` are absorbed — and
the diagnostics contain both an unclosed-chord and an unclosed-slur
diagnostic (the full code list also has the header diagnostics of a
headerless source). -/
theorem claim3_recovery_boundary :
    (parseWithDiagnostics ("[CEG\n(ABC".toList)).1.body.elements.head? =
      some (.chord ⟨[⟨.C, 0, none, none, ⟨1, 2⟩⟩,
                     ⟨.E, 0, none, none, ⟨2, 3⟩⟩,
                     ⟨.G, 0, none, none, ⟨3, 4⟩⟩], none, ⟨0, 4⟩⟩) ∧
    (parseWithDiagnostics ("[CEG\n(ABC".toList)).2.map Diagnostic.code =
      [.MissingReferenceNumber, .MissingKeyField, .MissingTitle,
       .UnclosedChord, .UnclosedSlur] :=
  ⟨rfl, rfl⟩

/-- C5: duration defaults — a bare note stores no duration (the
default duration is the fraction 1/1), `"C2"` yields 2/1, `"C/2"` and
`"C/"` yield 1/2, `"C3/4"` yields 3/4, all as exact fractions. -/
theorem claim5_duration_defaults :
    Duration.defaultVal = ⟨1, 1⟩ ∧
    (parse ("C".toList)).body.elements =
      [.note ⟨.C, 0, none, none, ⟨0, 1⟩⟩] ∧
    (parse ("C2".toList)).body.elements =
      [.note ⟨.C, 0, none, some ⟨2, 1⟩, ⟨0, 2⟩⟩] ∧
    (parse ("C/2".toList)).body.elements =
      [.note ⟨.C, 0, none, some ⟨1, 2⟩, ⟨0, 3⟩⟩] ∧
    (parse ("C/".toList)).body.elements =
      [.note ⟨.C, 0, none, some ⟨1, 2⟩, ⟨0, 2⟩⟩] ∧
    (parse ("C3/4".toList)).body.elements =
      [.note ⟨.C, 0, none, some ⟨3, 4⟩, ⟨0, 4⟩⟩] :=
  ⟨rfl, rfl, rfl, rfl, rfl, rfl⟩

/-- A token that the octave loop of `parse_note` consumes. -/
def isOctaveModTok (t : Token) : Bool :=
  t.kind = TokenKind.OctaveUp || t.kind = TokenKind.OctaveDown

/-- The octave loop adds one per `'` and subtracts one per `,` over the
leading run of octave-modifier tokens. -/
theorem octaveModsGo_spec (ts : List Token) (o : Int) (st : PState) :
    (octaveModsGo ts o st).1 =
      o + ((ts.takeWhile isOctaveModTok).countP
            (fun t => t.kind = TokenKind.OctaveUp) : Int)
        - ((ts.takeWhile isOctaveModTok).countP
            (fun t => t.kind = TokenKind.OctaveDown) : Int) := by
  induction ts generalizing o st with
  | nil => simp [octaveModsGo]
  | cons t rest ih =>
    cases hk : t.kind with
    | OctaveUp =>
      have hmod : isOctaveModTok t = true := by simp [isOctaveModTok, hk]
      simp only [octaveModsGo, hk, List.takeWhile_cons, hmod, if_true]
      rw [ih]
      simp [List.countP_cons, hk]
      omega
    | OctaveDown =>
      have hmod : isOctaveModTok t = true := by simp [isOctaveModTok, hk]
      simp only [octaveModsGo, hk, List.takeWhile_cons, hmod, if_true]
      rw [ih]
      simp [List.countP_cons, hk]
      omega
    | _ => first
      | (have hmod : isOctaveModTok t = false := by simp [isOctaveModTok, hk]
         simp [octaveModsGo, hk, List.takeWhile_cons, hmod])

/-- C6: octave arithmetic — an uppercase note letter starts at octave 0
and a lowercase one at octave 1 (`Pitch::from_char`), the octave loop
adds one per `'` and subtracts one per `,`, and in particular `"C'"`
parses to octave 1, `"C,,"` to −2, `"c"` to 1 and `"c''"` to 3. -/
theorem claim6_octave_arithmetic :
    (['C', 'D', 'E', 'F', 'G', 'A', 'B'].map Pitch.fromChar =
      [some (.C, 0), some (.D, 0), some (.E, 0), some (.F, 0),
       some (.G, 0), some (.A, 0), some (.B, 0)]) ∧
    (['c', 'd', 'e', 'f', 'g', 'a', 'b'].map Pitch.fromChar =
      [some (.C, 1), some (.D, 1), some (.E, 1), some (.F, 1),
       some (.G, 1), some (.A, 1), some (.B, 1)]) ∧
    (∀ (ts : List Token) (o : Int) (st : PState),
      (octaveModsGo ts o st).1 =
        o + ((ts.takeWhile isOctaveModTok).countP
              (fun t => t.kind = TokenKind.OctaveUp) : Int)
          - ((ts.takeWhile isOctaveModTok).countP
              (fun t => t.kind = TokenKind.OctaveDown) : Int)) ∧
    (parse ("C'".toList)).body.elements =
      [.note ⟨.C, 1, none, none, ⟨0, 2⟩⟩] ∧
    (parse ("C,,".toList)).body.elements =
      [.note ⟨.C, -2, none, none, ⟨0, 3⟩⟩] ∧
    (parse ("c".toList)).body.elements =
      [.note ⟨.C, 1, none, none, ⟨0, 1⟩⟩] ∧
    (parse ("c''".toList)).body.elements =
      [.note ⟨.C, 3, none, none, ⟨0, 3⟩⟩] :=
  ⟨rfl, rfl, octaveModsGo_spec, rfl, rfl, rfl, rfl⟩

/-- C2 counterexample: `is_recovery_point` does NOT include the
thin-thick (`|]`) and thick-thin (`[|`) bar-line variants, so "any
bar-line token variant" fails: in `"[C|]D"` the open chord swallows both
the `|]` bar token and the following note `D` instead of terminating at
the bar — the resulting body is a single one-note chord spanning the
whole input, with no bar-line and no `D` note element. -/
theorem claim2_counterexample_thin_thick_bar :
    isRecoveryKind .ThinThickBar = false ∧
    isRecoveryKind .ThickThinBar = false ∧
    tokenize ("[C|]D".toList) =
      [⟨.LeftBracket, ⟨0, 1⟩⟩, ⟨.Note, ⟨1, 2⟩⟩, ⟨.ThinThickBar, ⟨2, 4⟩⟩,
       ⟨.Note, ⟨4, 5⟩⟩, ⟨.Eof, ⟨5, 5⟩⟩] ∧
    (parseWithDiagnostics ("[C|]D".toList)).1.body.elements =
      [.chord ⟨[⟨.C, 0, none, none, ⟨1, 2⟩⟩], none, ⟨0, 5⟩⟩] ∧
    (parseWithDiagnostics ("[C|]D".toList)).2.map Diagnostic.code =
      [.MissingReferenceNumber, .MissingKeyField, .MissingTitle,
       .UnclosedChord] :=
  ⟨rfl, rfl, rfl, rfl, rfl⟩

/-- C4 counterexample: the empty source contains neither an `X:` nor a
`K:` field, yet `parse_with_diagnostics` yields FOUR diagnostics, not
exactly two: the two required-field errors plus a missing-title warning
and an empty-tune warning. -/
theorem claim4_counterexample_empty_source :
    (parseWithDiagnostics ([] : List Char)).2.map
        (fun d => (d.code, d.severity)) =
      [(.MissingReferenceNumber, .Error), (.MissingKeyField, .Error),
       (.MissingTitle, .Warning), (.EmptyTune, .Warning)] ∧
    (parseWithDiagnostics ([] : List Char)).2.length ≠ 2 :=
  ⟨rfl, by decide⟩

theorem report_diags (st : PState) (d : Diagnostic) (ds₀ : List Diagnostic)
    (h : st.diagnostics = some ds₀) :
    (report st d).diagnostics = some (ds₀ ++ [d]) := by
  simp [report, h]

theorem validateReferenceNumber_diags (st : PState) (field : HeaderField)
    (ds₀ : List Diagnostic) (h : st.diagnostics = some ds₀) :
    ∃ e, (validateReferenceNumber st field).diagnostics = some (ds₀ ++ e) := by
  unfold validateReferenceNumber
  dsimp only
  split_ifs <;>
    first
      | (refine ⟨[], ?_⟩; simpa using h)
      | exact ⟨_, report_diags _ _ _ h⟩

theorem validateMeter_diags (st : PState) (field : HeaderField)
    (ds₀ : List Diagnostic) (h : st.diagnostics = some ds₀) :
    ∃ e, (validateMeter st field).diagnostics = some (ds₀ ++ e) := by
  unfold validateMeter
  dsimp only
  split_ifs <;> (try split) <;> (try split_ifs) <;>
    first
      | (refine ⟨[], ?_⟩; simpa using h)
      | exact ⟨_, report_diags _ _ _ h⟩

theorem tempoBpm_diags (st : PState) (field : HeaderField) (b : List Char)
    (ds₀ : List Diagnostic) (h : st.diagnostics = some ds₀) :
    ∃ e, (tempoBpm st field b).diagnostics = some (ds₀ ++ e) := by
  unfold tempoBpm
  dsimp only
  split_ifs <;>
    first
      | (refine ⟨[], ?_⟩; simpa using h)
      | exact ⟨_, report_diags _ _ _ h⟩

theorem validateTempo_diags (st : PState) (field : HeaderField)
    (ds₀ : List Diagnostic) (h : st.diagnostics = some ds₀) :
    ∃ e, (validateTempo st field).diagnostics = some (ds₀ ++ e) := by
  unfold validateTempo
  dsimp only
  split_ifs <;> (try split) <;> (try split_ifs) <;> (try split) <;> (try split_ifs) <;>
    first
      | (refine ⟨[], ?_⟩; simpa using h)
      | exact ⟨_, report_diags _ _ _ h⟩
      | exact tempoBpm_diags _ _ _ _ h

theorem validateUnitNoteLength_diags (st : PState) (field : HeaderField)
    (ds₀ : List Diagnostic) (h : st.diagnostics = some ds₀) :
    ∃ e, (validateUnitNoteLength st field).diagnostics = some (ds₀ ++ e) := by
  unfold validateUnitNoteLength
  dsimp only
  split_ifs <;> (try split) <;> (try split_ifs) <;>
    first
      | (refine ⟨[], ?_⟩; simpa using h)
      | exact ⟨_, report_diags _ _ _ h⟩

theorem validateKey_diags (st : PState) (field : HeaderField)
    (ds₀ : List Diagnostic) (h : st.diagnostics = some ds₀) :
    ∃ e, (validateKey st field).diagnostics = some (ds₀ ++ e) := by
  unfold validateKey
  dsimp only
  split_ifs <;> (try split) <;> (try split_ifs) <;>
    first
      | (refine ⟨[], ?_⟩; simpa using h)
      | exact ⟨_, report_diags _ _ _ h⟩

/-- The per-field step of `validate_header`'s field loop keeps the
diagnostic list append-only. -/
theorem validateField_diags (s : PState) (field : HeaderField)
    (ds : List Diagnostic) (h : s.diagnostics = some ds) :
    ∃ e, ((match field.kind with
      | .ReferenceNumber => validateReferenceNumber s field
      | .Title =>
        if (trim field.value).isEmpty then
          report s (Diagnostic.warning .EmptyTitle field.range)
        else s
      | .Meter => validateMeter s field
      | .Tempo => validateTempo s field
      | .UnitNoteLength => validateUnitNoteLength s field
      | .Key => validateKey s field
      | _ => s) : PState).diagnostics = some (ds ++ e) := by
  cases field.kind <;> simp only
  case ReferenceNumber => exact validateReferenceNumber_diags _ _ _ h
  case Title =>
    split_ifs
    · exact ⟨_, report_diags _ _ _ h⟩
    · exact ⟨[], by simpa using h⟩
  case Meter => exact validateMeter_diags _ _ _ h
  case Tempo => exact validateTempo_diags _ _ _ h
  case UnitNoteLength => exact validateUnitNoteLength_diags _ _ _ h
  case Key => exact validateKey_diags _ _ _ h
  all_goals exact ⟨[], by simpa using h⟩

theorem validateFields_foldl_diags (fields : List HeaderField) :
    ∀ (s : PState) (ds : List Diagnostic), s.diagnostics = some ds →
    ∃ e, (fields.foldl (fun s field =>
      match field.kind with
      | .ReferenceNumber => validateReferenceNumber s field
      | .Title =>
        if (trim field.value).isEmpty then
          report s (Diagnostic.warning .EmptyTitle field.range)
        else s
      | .Meter => validateMeter s field
      | .Tempo => validateTempo s field
      | .UnitNoteLength => validateUnitNoteLength s field
      | .Key => validateKey s field
      | _ => s) s).diagnostics = some (ds ++ e) := by
  induction fields with
  | nil => intro s ds h; exact ⟨[], by simpa using h⟩
  | cons field rest ih =>
    intro s ds h
    obtain ⟨e₁, h₁⟩ := validateField_diags s field ds h
    obtain ⟨e₂, h₂⟩ := ih _ _ h₁
    exact ⟨e₁ ++ e₂, by simp only [List.foldl_cons]; rw [h₂]; simp⟩

/-- C4 (amended): a header with no `X:` and no `K:` field always yields
the missing-reference-number and missing-key errors among its appended
diagnostics (for ANY parser state and any such header), but not as the
only two diagnostics: the empty source yields those two errors PLUS a
missing-title and an empty-tune warning; and the header-only source
`"X:1\nT:Tune\nK:C\n"` (X:, title, K: in correct order, valid values)
yields zero diagnostics. -/
theorem claim4_required_field_gate :
    (∀ (st : PState) (header : Header) (ds₀ : List Diagnostic),
      st.diagnostics = some ds₀ →
      header.fields.filter (fun f => f.kind = HeaderFieldKind.ReferenceNumber) = [] →
      header.fields.find? (fun f => f.kind = HeaderFieldKind.Key) = none →
      ∃ ds₁, (validateHeader st header).diagnostics = some (ds₀ ++ ds₁) ∧
        Diagnostic.error .MissingReferenceNumber header.range ∈ ds₁ ∧
        Diagnostic.error .MissingKeyField header.range ∈ ds₁) ∧
    (parseWithDiagnostics ([] : List Char)).2.map
        (fun d => (d.code, d.severity)) =
      [(.MissingReferenceNumber, .Error), (.MissingKeyField, .Error),
       (.MissingTitle, .Warning), (.EmptyTune, .Warning)] ∧
    (parseWithDiagnostics ("X:1\nT:Tune\nK:C\n".toList)).2 = [] := by
  refine ⟨?_, rfl, rfl⟩
  intro st header ds₀ h hx hk
  unfold validateHeader
  dsimp only
  rw [hx, hk]
  simp only [List.isEmpty_nil, if_true, Option.isNone_none]
  have h₁ := report_diags st
    (Diagnostic.error .MissingReferenceNumber header.range) ds₀ h
  have h₂ := report_diags _
    (Diagnostic.error .MissingKeyField header.range) _ h₁
  split_ifs with hT
  · have h₃ := report_diags _
      (Diagnostic.warning .MissingTitle header.range) _ h₂
    obtain ⟨e, he⟩ := validateFields_foldl_diags header.fields _ _ h₃
    simp only [List.append_assoc] at he
    split
    · rename_i first heq
      split_ifs with hord
      · have h₄ := report_diags _
          (Diagnostic.warning .InvalidFieldOrder first.range) _ he
        simp only [List.append_assoc] at h₄
        exact ⟨_, h₄, by simp, by simp⟩
      · exact ⟨_, he, by simp, by simp⟩
    · exact ⟨_, he, by simp, by simp⟩
  · obtain ⟨e, he⟩ := validateFields_foldl_diags header.fields _ _ h₂
    simp only [List.append_assoc] at he
    split
    · rename_i first heq
      split_ifs with hord
      · have h₄ := report_diags _
          (Diagnostic.warning .InvalidFieldOrder first.range) _ he
        simp only [List.append_assoc] at h₄
        exact ⟨_, h₄, by simp, by simp⟩
      · exact ⟨_, he, by simp, by simp⟩
    · exact ⟨_, he, by simp, by simp⟩

theorem advance_diags (st : PState) :
    ((advance st).2).diagnostics = st.diagnostics := by
  unfold advance
  cases st.tokens[st.position]? <;> rfl

/-- With an explicit duration present, the tail always returns the
fraction it was given. -/
theorem pduFinish_some (st : PState) (ns : Option Nat) (dS n d : Nat) :
    (pduFinish st ns dS n d true).1 = some ⟨n, d⟩ := by
  unfold pduFinish
  split_ifs <;> first | rfl | simp_all

/-- Behaviour of the suspicious-duration tail: the warning is emitted
exactly when `16 * denominator ≤ numerator`. -/
theorem pduFinish_spec (st : PState) (ns : Option Nat) (dS n d : Nat)
    (hd : Bool) (ds₀ : List Diagnostic) (h : st.diagnostics = some ds₀) :
    ∃ e, (pduFinish st ns dS n d hd).2.diagnostics = some (ds₀ ++ e) ∧
      ((pduFinish st ns dS n d hd).1 = none → e = []) ∧
      (∀ dur, (pduFinish st ns dS n d hd).1 = some dur →
        dur = ⟨n, d⟩ ∧
        ((∃ x ∈ e, x.code = DiagnosticCode.SuspiciousDuration ∧
            x.severity = Severity.Warning) ↔ 16 * d ≤ n)) := by
  unfold pduFinish
  split_ifs with h₁ h₂
  · refine ⟨_, report_diags _ _ _ h, by simp, ?_⟩
    intro dur hdur
    simp only [Option.some.injEq] at hdur
    refine ⟨hdur.symm, ?_⟩
    constructor
    · intro _; exact h₂
    · intro _
      exact ⟨_, List.mem_singleton_self _, rfl, rfl⟩
  · refine ⟨[], by simpa using h, by simp, ?_⟩
    intro dur hdur
    simp only [Option.some.injEq] at hdur
    refine ⟨hdur.symm, ?_⟩
    simp [h₂]
  · exact ⟨[], by simpa using h, fun _ => rfl, fun dur hdur => by simp at hdur⟩

/-- Behaviour of the slash-and-denominator part of
`parse_duration_internal`. -/
theorem pduSlash_spec (st : PState) (ns : Option Nat) (dS n : Nat)
    (hd : Bool) (ds₀ : List Diagnostic) (h : st.diagnostics = some ds₀) :
    ∃ e, (pduSlash st ns dS n hd).2.diagnostics = some (ds₀ ++ e) ∧
      ((pduSlash st ns dS n hd).1 = none → e = []) ∧
      (∀ dur, (pduSlash st ns dS n hd).1 = some dur →
        ((∃ x ∈ e, x.code = DiagnosticCode.SuspiciousDuration ∧
            x.severity = Severity.Warning) ↔
          16 * dur.denominator ≤ dur.numerator)) := by
  have step : ∀ (s : PState) (dn : Nat) (hb : Bool),
      s.diagnostics = some ds₀ →
      ∃ e, (pduFinish s ns dS n dn hb).2.diagnostics = some (ds₀ ++ e) ∧
        ((pduFinish s ns dS n dn hb).1 = none → e = []) ∧
        (∀ dur, (pduFinish s ns dS n dn hb).1 = some dur →
          ((∃ x ∈ e, x.code = DiagnosticCode.SuspiciousDuration ∧
              x.severity = Severity.Warning) ↔
            16 * dur.denominator ≤ dur.numerator)) := by
    intro s dn hb hs
    obtain ⟨e, he, hn, hsome⟩ := pduFinish_spec s ns dS n dn hb ds₀ hs
    refine ⟨e, he, hn, ?_⟩
    intro dur hdur
    obtain ⟨hde, hiff⟩ := hsome dur hdur
    rw [hde]
    exact hiff
  unfold pduSlash
  by_cases h₁ : check st .Slash
  · rw [if_pos h₁]
    by_cases h₂ : check (advance st).2 .NoteLength
    · rw [if_pos h₂]
      rcases hA : advance (advance st).2 with ⟨tok?, st₂⟩
      have hst₂ : st₂.diagnostics = some ds₀ := by
        have h' := advance_diags (advance st).2
        rw [hA] at h'
        dsimp only at h'
        rw [h', advance_diags]
        exact h
      cases tok? with
      | none =>
        exact ⟨[], by simpa using hst₂, fun _ => rfl, fun dur hdur => by simp at hdur⟩
      | some token =>
        dsimp only
        cases hP : parseU32 (tokenText st₂ token) with
        | none => exact step st₂ 1 true hst₂
        | some dval =>
          dsimp only
          by_cases hz : dval = 0
          · rw [if_pos hz]
            have hrep := report_diags st₂
              (Diagnostic.error .InvalidDuration ⟨dS, currentPosition st₂⟩) _ hst₂
            obtain ⟨e, he, hn, hsome⟩ := pduFinish_spec _ ns dS n 1 true _ hrep
            simp only [List.append_assoc] at he
            refine ⟨_, he, ?_, ?_⟩
            · intro hnone
              rw [pduFinish_some] at hnone
              simp at hnone
            · intro dur hdur
              obtain ⟨hde, hiff⟩ := hsome dur hdur
              rw [hde]
              constructor
              · intro hmem
                apply hiff.mp
                obtain ⟨x, hx, hxc, hxs⟩ := hmem
                rcases List.mem_append.mp hx with hx' | hx'
                · simp at hx'
                  rw [hx'] at hxc
                  simp [Diagnostic.error] at hxc
                · exact ⟨x, hx', hxc, hxs⟩
              · intro hle
                obtain ⟨x, hx, hxc, hxs⟩ := hiff.mpr hle
                exact ⟨x, List.mem_append.mpr (Or.inr hx), hxc, hxs⟩
          · rw [if_neg hz]
            exact step st₂ dval true hst₂
    · rw [if_neg h₂]
      have hadv : ((advance st).2).diagnostics = some ds₀ := by
        rw [advance_diags]; exact h
      exact step (advance st).2 2 true hadv
  · rw [if_neg h₁]
    exact step st 1 hd h

/-- C7: `parse_duration_internal` emits the suspicious-duration warning
for an explicit duration `numerator/denominator` exactly when the
effective value is at least 16 — the boundary is inclusive (the Rust
`f64` comparison against `16.0` coincides with the exact rational
comparison, see `pduFinish`); when no duration is parsed, no diagnostic
at all is emitted by it. -/
theorem claim7_suspicious_duration_boundary :
    ∀ (st : PState) (ns : Option Nat) (ds₀ : List Diagnostic),
      st.diagnostics = some ds₀ →
      ∃ e, (parseDurationInternal st ns).2.diagnostics = some (ds₀ ++ e) ∧
        ((parseDurationInternal st ns).1 = none → e = []) ∧
        (∀ dur, (parseDurationInternal st ns).1 = some dur →
          ((∃ x ∈ e, x.code = DiagnosticCode.SuspiciousDuration ∧
              x.severity = Severity.Warning) ↔
            16 * dur.denominator ≤ dur.numerator)) := by
  intro st ns ds₀ h
  unfold parseDurationInternal
  dsimp only
  by_cases h₁ : check st .NoteLength
  · rw [if_pos h₁]
    rcases hA : advance st with ⟨tok?, st₁⟩
    have hst₁ : st₁.diagnostics = some ds₀ := by
      have h' := advance_diags st
      rw [hA] at h'
      dsimp only at h'
      rw [h']
      exact h
    cases tok? with
    | none =>
      exact ⟨[], by simpa using hst₁, fun _ => rfl, fun dur hdur => by simp at hdur⟩
    | some token =>
      dsimp only
      cases hP : parseU32 (tokenText st₁ token) with
      | none => exact pduSlash_spec st₁ ns (currentPosition st) 1 false ds₀ hst₁
      | some n => exact pduSlash_spec st₁ ns (currentPosition st) n true ds₀ hst₁
  · rw [if_neg h₁]
    exact pduSlash_spec st ns (currentPosition st) 1 false ds₀ h

/-- Witness for C7 at the concrete state one token into `"C16"` (the
note-length token `16`): the parsed duration is `16/1` and the
suspicious-duration warning fires. -/
theorem claim7_suspicious_duration_boundary_witness :
    ∃ e, (parseDurationInternal
        ⟨"C16".toList, tokenize ("C16".toList), 1, some []⟩ (some 0)).2.diagnostics
        = some ([] ++ e) ∧
      ((parseDurationInternal
        ⟨"C16".toList, tokenize ("C16".toList), 1, some []⟩ (some 0)).1 = none → e = []) ∧
      (∀ dur, (parseDurationInternal
          ⟨"C16".toList, tokenize ("C16".toList), 1, some []⟩ (some 0)).1 = some dur →
        ((∃ x ∈ e, x.code = DiagnosticCode.SuspiciousDuration ∧
            x.severity = Severity.Warning) ↔
          16 * dur.denominator ≤ dur.numerator)) :=
  claim7_suspicious_duration_boundary
    ⟨"C16".toList, tokenize ("C16".toList), 1, some []⟩ (some 0) [] rfl

/-- C8: an explicit duration written with denominator 0 (a note-length
token, a slash, then a note-length token spelling `0`) makes the parser
emit an error-severity invalid-duration diagnostic, and the stored
duration keeps the written numerator with the denominator coerced
to 1. -/
theorem claim8_zero_denominator :
    ∀ (st : PState) (ns : Option Nat) (ds₀ : List Diagnostic)
      (t₁ t₂ t₃ : Token) (n : Nat),
      st.diagnostics = some ds₀ →
      st.tokens[st.position]? = some t₁ → t₁.kind = .NoteLength →
      parseU32 (slice st.source t₁.range) = some n →
      st.tokens[st.position + 1]? = some t₂ → t₂.kind = .Slash →
      st.tokens[st.position + 2]? = some t₃ → t₃.kind = .NoteLength →
      parseU32 (slice st.source t₃.range) = some 0 →
      (parseDurationInternal st ns).1 = some ⟨n, 1⟩ ∧
      ∃ e, (parseDurationInternal st ns).2.diagnostics = some (ds₀ ++ e) ∧
        ∃ x ∈ e, x.code = DiagnosticCode.InvalidDuration ∧
          x.severity = Severity.Error := by
  intro st ns ds₀ t₁ t₂ t₃ n h ht1 hk1 hPn ht2 hk2 ht3 hk3 hP0
  have ht3' : st.tokens[st.position + 1 + 1]? = some t₃ := ht3
  have hred : parseDurationInternal st ns =
      pduFinish (report { st with position := st.position + 1 + 1 + 1 }
        (Diagnostic.error .InvalidDuration
          ⟨currentPosition st,
           currentPosition { st with position := st.position + 1 + 1 + 1 }⟩))
        ns (currentPosition st) n 1 true := by
    simp only [parseDurationInternal, pduSlash, check, peek, advance,
      tokenText, ht1, ht2, ht3', hk1, hk2, hk3, hPn, hP0]
    simp
  rw [hred]
  constructor
  · exact pduFinish_some _ _ _ _ _
  · have hrep := report_diags { st with position := st.position + 1 + 1 + 1 }
      (Diagnostic.error .InvalidDuration
        ⟨currentPosition st,
         currentPosition { st with position := st.position + 1 + 1 + 1 }⟩) ds₀ h
    obtain ⟨e, he, _, _⟩ := pduFinish_spec _ ns (currentPosition st) n 1 true _ hrep
    simp only [List.append_assoc] at he
    refine ⟨_, he, ?_⟩
    exact ⟨_, List.mem_append_left _ (List.mem_singleton_self _), rfl, rfl⟩

/-- Witness for C8 at the concrete input `"C1/0"` (one token in, at the
numeral `1`): the stored duration is `1/1` and the invalid-duration
error is emitted. -/
theorem claim8_zero_denominator_witness :
    (parseDurationInternal
      ⟨"C1/0".toList, tokenize ("C1/0".toList), 1, some []⟩ (some 0)).1 =
        some ⟨1, 1⟩ ∧
    ∃ e, (parseDurationInternal
        ⟨"C1/0".toList, tokenize ("C1/0".toList), 1, some []⟩ (some 0)).2.diagnostics
        = some ([] ++ e) ∧
      ∃ x ∈ e, x.code = DiagnosticCode.InvalidDuration ∧
        x.severity = Severity.Error :=
  claim8_zero_denominator
    ⟨"C1/0".toList, tokenize ("C1/0".toList), 1, some []⟩ (some 0) []
    ⟨.NoteLength, ⟨1, 2⟩⟩ ⟨.Slash, ⟨2, 3⟩⟩ ⟨.NoteLength, ⟨3, 4⟩⟩ 1
    rfl rfl rfl rfl rfl rfl rfl rfl rfl

/-- Witness for C4's general part at the empty header and a fresh
state. -/
theorem claim4_required_field_gate_witness :
    ∃ ds₁, (validateHeader ⟨[], [], 0, some []⟩ ⟨[], ⟨0, 0⟩⟩).diagnostics =
        some ([] ++ ds₁) ∧
      Diagnostic.error .MissingReferenceNumber (⟨0, 0⟩ : TextRange) ∈ ds₁ ∧
      Diagnostic.error .MissingKeyField (⟨0, 0⟩ : TextRange) ∈ ds₁ :=
  (claim4_required_field_gate).1 ⟨[], [], 0, some []⟩ ⟨[], ⟨0, 0⟩⟩ [] rfl rfl rfl

theorem report_tokens (st : PState) (d : Diagnostic) :
    (report st d).tokens = st.tokens := by
  unfold report
  cases st.diagnostics <;> rfl

theorem report_position (st : PState) (d : Diagnostic) :
    (report st d).position = st.position := by
  unfold report
  cases st.diagnostics <;> rfl

theorem check_report (st : PState) (d : Diagnostic) (k : TokenKind) :
    check (report st d) k = check st k := by
  unfold check peek report
  cases st.diagnostics <;> rfl

theorem currentPosition_report (st : PState) (d : Diagnostic) :
    currentPosition (report st d) = currentPosition st := by
  unfold currentPosition report
  cases st.diagnostics <;> rfl

/-- At a recovery point, any non-recovery token-kind check fails. -/
theorem isRecoveryPoint_check_false (st : PState) (k : TokenKind)
    (hrec : isRecoveryPoint st = true) (hk : isRecoveryKind k = false) :
    check st k = false := by
  unfold isRecoveryPoint at hrec
  unfold check
  cases hp : peek st with
  | none => rfl
  | some t =>
    rw [hp] at hrec
    simp only [decide_eq_true_eq] at *
    by_contra hc
    simp only [Bool.not_eq_false, decide_eq_true_eq] at hc
    rw [hc] at hrec
    rw [hrec] at hk
    cases hk

/-- Without an error token under the cursor, `handle_error_tokens` is the
identity. -/
theorem handleErrorTokens_noop (st : PState)
    (h : check st .Error = false) : handleErrorTokens st = st := by
  unfold handleErrorTokens
  cases hd : st.tokens.drop st.position with
  | nil => rfl
  | cons t rest =>
    have hhead : st.tokens[st.position]? = some t := by
      rw [← List.head?_drop, hd]
      rfl
    unfold check peek at h
    rw [hhead] at h
    simp only [decide_eq_true_eq] at h
    simp only [handleErrorGo]
    rw [if_neg (by simpa using h)]

/-- Without note-length or slash tokens under the cursor,
`parse_duration_internal` parses nothing and leaves the state alone. -/
theorem parseDurationInternal_noop (st : PState) (ns : Option Nat)
    (h₁ : check st .NoteLength = false) (h₂ : check st .Slash = false) :
    parseDurationInternal st ns = (none, st) := by
  unfold parseDurationInternal pduSlash pduFinish
  rw [h₁]
  simp only [Bool.false_eq_true, if_false]
  rw [h₂]
  simp

/-- The chord loop stops immediately at a recovery point, consuming
nothing. -/
theorem parseChordLoop_recovery (fuel : Nat) (st : PState) (notes : List Note)
    (hrec : isRecoveryPoint st = true) :
    parseChordLoop (fuel + 1) st notes = (notes, st) := by
  have hErr : check st .Error = false :=
    isRecoveryPoint_check_false st .Error hrec rfl
  simp only [parseChordLoop]
  split_ifs <;> first | rfl | simp_all

/-- The grace-note loop stops immediately at a recovery point, consuming
nothing. -/
theorem parseGraceLoop_recovery (fuel : Nat) (st : PState) (notes : List Note)
    (hrec : isRecoveryPoint st = true) :
    parseGraceLoop (fuel + 1) st notes = (notes, st) := by
  have hErr : check st .Error = false :=
    isRecoveryPoint_check_false st .Error hrec rfl
  simp only [parseGraceLoop]
  rw [handleErrorTokens_noop st hErr]
  split_ifs <;> first | rfl | simp_all

/-- The slur loop stops immediately at a recovery point, consuming
nothing. -/
theorem parseSlurLoop_recovery (fuel : Nat) (st : PState)
    (elements : List MusicElement) (hrec : isRecoveryPoint st = true) :
    parseSlurLoop (fuel + 1) st elements = (elements, st) := by
  have hErr : check st .Error = false :=
    isRecoveryPoint_check_false st .Error hrec rfl
  simp only [parseSlurLoop]
  rw [handleErrorTokens_noop st hErr]
  split_ifs <;> first | rfl | simp_all

/-- `parse_chord` when the loop ends at a recovery point: the loop's
notes are kept, no duration, and the unclosed-chord error is labeled
with the opener's range; no token is consumed past the loop's state. -/
theorem parseChord_unclosed (fuel : Nat) (st : PState) (opTok : Token)
    (hpeek : peek st = some opTok) (hkind : opTok.kind = .LeftBracket)
    (hrec : isRecoveryPoint (parseChordLoop fuel (advance st).2 []).2 = true) :
    parseChord fuel st =
      (some ⟨(parseChordLoop fuel (advance st).2 []).1, none,
         ⟨currentPosition st,
          currentPosition (parseChordLoop fuel (advance st).2 []).2⟩⟩,
       report (parseChordLoop fuel (advance st).2 []).2
         ((Diagnostic.error .UnclosedChord
            ⟨currentPosition st,
             currentPosition (parseChordLoop fuel (advance st).2 []).2⟩).withLabel
           opTok.range)) := by
  have hLB : check st .LeftBracket = true := by
    unfold check
    rw [hpeek]
    dsimp only
    rw [hkind]
    simp
  unfold parseChord
  rw [hpeek]
  try dsimp only
  rw [if_neg (by simp [hLB])]
  generalize hlp : parseChordLoop fuel (advance st).2 [] = lp at hrec ⊢
  obtain ⟨notes, stL⟩ := lp
  try dsimp only at hrec ⊢
  have hRB : check stL .RightBracket = false :=
    isRecoveryPoint_check_false stL .RightBracket hrec rfl
  rw [hRB]
  simp only [Bool.false_eq_true, and_false, if_false]
  try dsimp only
  rw [parseDurationInternal_noop]
  · rw [currentPosition_report]
  · rw [check_report]
    exact isRecoveryPoint_check_false stL .NoteLength hrec rfl
  · rw [check_report]
    exact isRecoveryPoint_check_false stL .Slash hrec rfl

/-- `parse_slur` when the element loop ends at a recovery point: the
loop's elements are kept and the unclosed-slur error is labeled with the
opener's range; no token is consumed past the loop's state. -/
theorem parseSlur_unclosed (fuel : Nat) (st : PState) (opTok : Token)
    (hpeek : peek st = some opTok) (hkind : opTok.kind = .LeftParen)
    (hrec : isRecoveryPoint (parseSlurLoop fuel (advance st).2 []).2 = true) :
    parseSlur (fuel + 1) st =
      (some ((parseSlurLoop fuel (advance st).2 []).1,
         ⟨currentPosition st,
          currentPosition (parseSlurLoop fuel (advance st).2 []).2⟩),
       report (parseSlurLoop fuel (advance st).2 []).2
         ((Diagnostic.error .UnclosedSlur
            ⟨currentPosition st,
             currentPosition (parseSlurLoop fuel (advance st).2 []).2⟩).withLabel
           opTok.range)) := by
  have hLP : check st .LeftParen = true := by
    unfold check
    rw [hpeek]
    dsimp only
    rw [hkind]
    simp
  simp only [parseSlur]
  rw [hpeek]
  try dsimp only
  rw [if_neg (by simp [hLP])]
  generalize hlp : parseSlurLoop fuel (advance st).2 [] = lp at hrec ⊢
  obtain ⟨elems, stL⟩ := lp
  try dsimp only at hrec ⊢
  have hRP : check stL .RightParen = false :=
    isRecoveryPoint_check_false stL .RightParen hrec rfl
  rw [hRP]
  simp only [Bool.false_eq_true, if_false]
  rw [currentPosition_report]

/-- `parse_grace_notes` when the note loop ends at a recovery point: the
loop's notes are kept and the unclosed-grace-notes error is labeled with
the opener's range; no token is consumed past the loop's state. -/
theorem parseGraceNotes_unclosed (fuel : Nat) (st : PState) (opTok : Token)
    (hpeek : peek st = some opTok) (hkind : opTok.kind = .LeftBrace)
    (hrec : isRecoveryPoint (parseGraceLoop fuel (advance st).2 []).2 = true) :
    parseGraceNotes fuel st =
      (some ⟨(parseGraceLoop fuel (advance st).2 []).1,
         ⟨currentPosition st,
          currentPosition (parseGraceLoop fuel (advance st).2 []).2⟩⟩,
       report (parseGraceLoop fuel (advance st).2 []).2
         ((Diagnostic.error .UnclosedGraceNotes
            ⟨currentPosition st,
             currentPosition (parseGraceLoop fuel (advance st).2 []).2⟩).withLabel
           opTok.range)) := by
  have hLB : check st .LeftBrace = true := by
    unfold check
    rw [hpeek]
    dsimp only
    rw [hkind]
    simp
  unfold parseGraceNotes
  rw [hpeek]
  try dsimp only
  rw [if_neg (by simp [hLB])]
  generalize hlp : parseGraceLoop fuel (advance st).2 [] = lp at hrec ⊢
  obtain ⟨ns, stL⟩ := lp
  try dsimp only at hrec ⊢
  have hRB : check stL .RightBrace = false :=
    isRecoveryPoint_check_false stL .RightBrace hrec rfl
  rw [hRB]
  simp only [Bool.false_eq_true, if_false]
  rw [currentPosition_report]

/-- C2 (amended): a recovery point is a plain bar, a double bar, a
repeat-start or repeat-end bar, a newline, or end-of-input — not the
thin-thick (`|]`) or thick-thin (`[|`) bar variants.  Reaching one while
a chord, grace-note, or slur bracket is still open stops that
construct's loop at once without consuming the recovery token, and the
construct then emits the matching unclosed diagnostic labeled with the
opener's range, resuming at the loop's final state. -/
theorem claim2_amended_recovery :
    (∀ k, isRecoveryKind k =
        (k = .Bar ∨ k = .DoubleBar ∨ k = .RepeatStart ∨ k = .RepeatEnd ∨
          k = .Newline ∨ k = .Eof : Bool)) ∧
    (∀ fuel st notes, isRecoveryPoint st = true →
        parseChordLoop (fuel + 1) st notes = (notes, st)) ∧
    (∀ fuel st notes, isRecoveryPoint st = true →
        parseGraceLoop (fuel + 1) st notes = (notes, st)) ∧
    (∀ fuel st elements, isRecoveryPoint st = true →
        parseSlurLoop (fuel + 1) st elements = (elements, st)) ∧
    (∀ fuel st opTok, peek st = some opTok → opTok.kind = .LeftBracket →
        isRecoveryPoint (parseChordLoop fuel (advance st).2 []).2 = true →
        parseChord fuel st =
          (some ⟨(parseChordLoop fuel (advance st).2 []).1, none,
             ⟨currentPosition st,
              currentPosition (parseChordLoop fuel (advance st).2 []).2⟩⟩,
           report (parseChordLoop fuel (advance st).2 []).2
             ((Diagnostic.error .UnclosedChord
                ⟨currentPosition st,
                 currentPosition (parseChordLoop fuel (advance st).2 []).2⟩).withLabel
               opTok.range))) ∧
    (∀ fuel st opTok, peek st = some opTok → opTok.kind = .LeftParen →
        isRecoveryPoint (parseSlurLoop fuel (advance st).2 []).2 = true →
        parseSlur (fuel + 1) st =
          (some ((parseSlurLoop fuel (advance st).2 []).1,
             ⟨currentPosition st,
              currentPosition (parseSlurLoop fuel (advance st).2 []).2⟩),
           report (parseSlurLoop fuel (advance st).2 []).2
             ((Diagnostic.error .UnclosedSlur
                ⟨currentPosition st,
                 currentPosition (parseSlurLoop fuel (advance st).2 []).2⟩).withLabel
               opTok.range))) ∧
    (∀ fuel st opTok, peek st = some opTok → opTok.kind = .LeftBrace →
        isRecoveryPoint (parseGraceLoop fuel (advance st).2 []).2 = true →
        parseGraceNotes fuel st =
          (some ⟨(parseGraceLoop fuel (advance st).2 []).1,
             ⟨currentPosition st,
              currentPosition (parseGraceLoop fuel (advance st).2 []).2⟩⟩,
           report (parseGraceLoop fuel (advance st).2 []).2
             ((Diagnostic.error .UnclosedGraceNotes
                ⟨currentPosition st,
                 currentPosition (parseGraceLoop fuel (advance st).2 []).2⟩).withLabel
               opTok.range))) :=
  ⟨fun k => by cases k <;> rfl,
   parseChordLoop_recovery, parseGraceLoop_recovery, parseSlurLoop_recovery,
   parseChord_unclosed, parseSlur_unclosed, parseGraceNotes_unclosed⟩

/-- Witness for C2's amended theorem: in "[C\n" the chord opened at
offset 0 hits the newline recovery point at offset 2, keeps its single
note, and receives the unclosed-chord error labeled with the opener's
range 0..1. -/
theorem claim2_amended_recovery_witness :
    parseChord 8 ⟨"[C\n".toList, tokenize "[C\n".toList, 0, some []⟩ =
      (some ⟨(parseChordLoop 8
           (advance ⟨"[C\n".toList, tokenize "[C\n".toList, 0, some []⟩).2 []).1,
         none, ⟨0, 2⟩⟩,
       report (parseChordLoop 8
           (advance ⟨"[C\n".toList, tokenize "[C\n".toList, 0, some []⟩).2 []).2
         ((Diagnostic.error .UnclosedChord ⟨0, 2⟩).withLabel ⟨0, 1⟩)) :=
  claim2_amended_recovery.2.2.2.2.1 8
    ⟨"[C\n".toList, tokenize "[C\n".toList, 0, some []⟩
    ⟨.LeftBracket, ⟨0, 1⟩⟩ rfl rfl rfl

/-! ### Diagnostic-sink irrelevance (`parse` vs `parse_with_diagnostics`) -/

/-- Forget the diagnostic sink (the parser built by `Parser::new`, as
opposed to `Parser::with_diagnostics`). -/
def strip (st : PState) : PState := { st with diagnostics := none }

theorem report_strip (st : PState) (d : Diagnostic) :
    report (strip st) d = strip st := rfl

theorem strip_report (st : PState) (d : Diagnostic) :
    strip (report st d) = strip st := by
  unfold report
  cases st.diagnostics <;> rfl

theorem peek_strip (st : PState) : peek (strip st) = peek st := rfl

theorem check_strip (st : PState) (k : TokenKind) :
    check (strip st) k = check st k := rfl

theorem isAtEnd_strip (st : PState) : isAtEnd (strip st) = isAtEnd st := rfl

theorem currentPosition_strip (st : PState) :
    currentPosition (strip st) = currentPosition st := rfl

theorem tokenText_strip (st : PState) (t : Token) :
    tokenText (strip st) t = tokenText st t := rfl

theorem isRecoveryPoint_strip (st : PState) :
    isRecoveryPoint (strip st) = isRecoveryPoint st := rfl

theorem bigFuel_strip (st : PState) : bigFuel (strip st) = bigFuel st := rfl

theorem isInlineField_strip (st : PState) :
    isInlineField (strip st) = isInlineField st := rfl

theorem advance_strip (st : PState) :
    advance (strip st) = ((advance st).1, strip (advance st).2) := by
  unfold advance strip
  dsimp only
  cases st.tokens[st.position]? <;> rfl

theorem skipTrivia_strip (st : PState) :
    skipTrivia (strip st) = strip (skipTrivia st) := rfl

theorem skipWhitespaceOnly_strip (st : PState) :
    skipWhitespaceOnly (strip st) = strip (skipWhitespaceOnly st) := rfl

theorem skipNewlines_strip (st : PState) :
    skipNewlines (strip st) = strip (skipNewlines st) := rfl

theorem stripBump (st : PState) :
    (⟨(strip st).source, (strip st).tokens, (strip st).position + 1,
      (strip st).diagnostics⟩ : PState) =
    strip { st with position := st.position + 1 } := rfl

theorem handleErrorGo_strip (ts : List Token) (st : PState) :
    handleErrorGo ts (strip st) = strip (handleErrorGo ts st) := by
  induction ts generalizing st with
  | nil => rfl
  | cons t rest ih =>
    unfold handleErrorGo
    split_ifs with h
    · rw [stripBump, report_strip,
        show strip { st with position := st.position + 1 } =
          strip (report { st with position := st.position + 1 }
            (Diagnostic.error .UnexpectedCharacter t.range)) from
          (strip_report _ _).symm]
      exact ih _
    · rfl

theorem handleErrorTokens_strip (st : PState) :
    handleErrorTokens (strip st) = strip (handleErrorTokens st) := by
  unfold handleErrorTokens
  exact handleErrorGo_strip _ st

theorem collectGo_strip (ts : List Token) (st : PState) :
    collectGo ts (strip st) =
      ((collectGo ts st).1, strip (collectGo ts st).2) := by
  induction ts generalizing st with
  | nil => rfl
  | cons t rest ih =>
    unfold collectGo
    cases t.kind <;> first
    | rfl
    | (dsimp only
       rw [stripBump, ih]
       rfl)

theorem collectUntilNewline_strip (st : PState) :
    collectUntilNewline (strip st) =
      ((collectUntilNewline st).1, strip (collectUntilNewline st).2) := by
  unfold collectUntilNewline
  dsimp only
  rw [show (strip st).tokens.drop (strip st).position =
      st.tokens.drop st.position from rfl, collectGo_strip]

theorem validateReferenceNumber_strip (st : PState) (f : HeaderField) :
    validateReferenceNumber (strip st) f = strip (validateReferenceNumber st f) := by
  unfold validateReferenceNumber
  dsimp only
  repeat' split
  all_goals first
  | rfl
  | (simp only [report_strip, strip_report]; rfl)
  | simp_all [report_strip, strip_report]

theorem validateMeter_strip (st : PState) (f : HeaderField) :
    validateMeter (strip st) f = strip (validateMeter st f) := by
  unfold validateMeter
  dsimp only
  repeat' split
  all_goals first
  | rfl
  | (simp only [report_strip, strip_report]; rfl)
  | simp_all [report_strip, strip_report]

theorem tempoBpm_strip (st : PState) (f : HeaderField) (b : List Char) :
    tempoBpm (strip st) f b = strip (tempoBpm st f b) := by
  unfold tempoBpm
  dsimp only
  repeat' split
  all_goals first
  | rfl
  | (simp only [report_strip, strip_report]; rfl)
  | simp_all [report_strip, strip_report]

theorem validateTempo_strip (st : PState) (f : HeaderField) :
    validateTempo (strip st) f = strip (validateTempo st f) := by
  unfold validateTempo
  dsimp only
  repeat' split
  all_goals first
  | rfl
  | (simp only [report_strip, strip_report, tempoBpm_strip]; rfl)
  | simp_all [report_strip, strip_report, tempoBpm_strip]

theorem validateUnitNoteLength_strip (st : PState) (f : HeaderField) :
    validateUnitNoteLength (strip st) f = strip (validateUnitNoteLength st f) := by
  unfold validateUnitNoteLength
  dsimp only
  repeat' split
  all_goals first
  | rfl
  | (simp only [report_strip, strip_report]; rfl)
  | simp_all [report_strip, strip_report]

set_option maxHeartbeats 1000000 in
theorem validateKey_strip (st : PState) (f : HeaderField) :
    validateKey (strip st) f = strip (validateKey st f) := by
  unfold validateKey
  dsimp only
  repeat' split
  all_goals first
  | rfl
  | (simp only [report_strip, strip_report]; rfl)
  | simp_all [report_strip, strip_report]

theorem foldl_strip {α : Type} (g : PState → α → PState)
    (hg : ∀ s a, g (strip s) a = strip (g s a)) (xs : List α) :
    ∀ s : PState, xs.foldl g (strip s) = strip (xs.foldl g s) := by
  induction xs with
  | nil => intro s; rfl
  | cons x rest ih =>
    intro s
    simp only [List.foldl_cons, hg]
    exact ih _

/-- The per-field validation step commutes with dropping the sink. -/
theorem validateField_strip (s : PState) (field : HeaderField) :
    (match field.kind with
      | HeaderFieldKind.ReferenceNumber => validateReferenceNumber (strip s) field
      | HeaderFieldKind.Title =>
        if (trim field.value).isEmpty then
          report (strip s) (Diagnostic.warning .EmptyTitle field.range)
        else strip s
      | HeaderFieldKind.Meter => validateMeter (strip s) field
      | HeaderFieldKind.Tempo => validateTempo (strip s) field
      | HeaderFieldKind.UnitNoteLength => validateUnitNoteLength (strip s) field
      | HeaderFieldKind.Key => validateKey (strip s) field
      | _ => strip s)
    = strip (match field.kind with
      | HeaderFieldKind.ReferenceNumber => validateReferenceNumber s field
      | HeaderFieldKind.Title =>
        if (trim field.value).isEmpty then
          report s (Diagnostic.warning .EmptyTitle field.range)
        else s
      | HeaderFieldKind.Meter => validateMeter s field
      | HeaderFieldKind.Tempo => validateTempo s field
      | HeaderFieldKind.UnitNoteLength => validateUnitNoteLength s field
      | HeaderFieldKind.Key => validateKey s field
      | _ => s) := by
  cases field.kind <;> simp only
  case ReferenceNumber => exact validateReferenceNumber_strip _ _
  case Title => split_ifs <;> simp [report_strip, strip_report]
  case Meter => exact validateMeter_strip _ _
  case Tempo => exact validateTempo_strip _ _
  case UnitNoteLength => exact validateUnitNoteLength_strip _ _
  case Key => exact validateKey_strip _ _
  all_goals rfl

/-- The field-validation fold of `validate_header` commutes with
dropping the sink. -/
theorem validateFields_foldl_strip (xs : List HeaderField) (s : PState) :
    xs.foldl (fun s field =>
      match field.kind with
      | .ReferenceNumber => validateReferenceNumber s field
      | .Title =>
        if (trim field.value).isEmpty then
          report s (Diagnostic.warning .EmptyTitle field.range)
        else s
      | .Meter => validateMeter s field
      | .Tempo => validateTempo s field
      | .UnitNoteLength => validateUnitNoteLength s field
      | .Key => validateKey s field
      | _ => s) (strip s)
    = strip (xs.foldl (fun s field =>
      match field.kind with
      | .ReferenceNumber => validateReferenceNumber s field
      | .Title =>
        if (trim field.value).isEmpty then
          report s (Diagnostic.warning .EmptyTitle field.range)
        else s
      | .Meter => validateMeter s field
      | .Tempo => validateTempo s field
      | .UnitNoteLength => validateUnitNoteLength s field
      | .Key => validateKey s field
      | _ => s) s) :=
  foldl_strip _ (fun s a => validateField_strip s a) xs s

/-- The duplicate-`X:` report fold commutes with dropping the sink. -/
theorem dupRef_foldl_strip (first : HeaderField) (dups : List HeaderField)
    (s : PState) :
    dups.foldl (fun s dup =>
      report s ((Diagnostic.error .DuplicateReferenceNumber dup.range).withLabel
        first.range)) (strip s)
    = strip (dups.foldl (fun s dup =>
      report s ((Diagnostic.error .DuplicateReferenceNumber dup.range).withLabel
        first.range)) s) :=
  foldl_strip _ (fun s a => by rw [report_strip, strip_report]) dups s

theorem validateHeader_strip (st : PState) (hd : Header) :
    validateHeader (strip st) hd = strip (validateHeader st hd) := by
  unfold validateHeader
  dsimp only
  have e₁ : (if (hd.fields.filter
        (fun f => f.kind = HeaderFieldKind.ReferenceNumber)).isEmpty then
        report (strip st) (Diagnostic.error .MissingReferenceNumber hd.range)
      else strip st)
      = strip (if (hd.fields.filter
          (fun f => f.kind = HeaderFieldKind.ReferenceNumber)).isEmpty then
          report st (Diagnostic.error .MissingReferenceNumber hd.range)
        else st) := by
    split_ifs <;> simp [report_strip, strip_report]
  rw [e₁]
  generalize (if (hd.fields.filter
      (fun f => f.kind = HeaderFieldKind.ReferenceNumber)).isEmpty then
      report st (Diagnostic.error .MissingReferenceNumber hd.range)
    else st : PState) = s₁
  have tail : ∀ s₂ : PState,
      (match hd.fields.head? with
       | some first =>
         if first.kind ≠ HeaderFieldKind.ReferenceNumber then
           report (hd.fields.foldl (fun s field =>
               match field.kind with
               | .ReferenceNumber => validateReferenceNumber s field
               | .Title =>
                 if (trim field.value).isEmpty then
                   report s (Diagnostic.warning .EmptyTitle field.range)
                 else s
               | .Meter => validateMeter s field
               | .Tempo => validateTempo s field
               | .UnitNoteLength => validateUnitNoteLength s field
               | .Key => validateKey s field
               | _ => s)
             (if (hd.fields.find? (fun f => f.kind = HeaderFieldKind.Title)).isNone then
               report (if (hd.fields.find?
                     (fun f => f.kind = HeaderFieldKind.Key)).isNone then
                   report (strip s₂) (Diagnostic.error .MissingKeyField hd.range)
                 else strip s₂) (Diagnostic.warning .MissingTitle hd.range)
             else
               if (hd.fields.find? (fun f => f.kind = HeaderFieldKind.Key)).isNone then
                 report (strip s₂) (Diagnostic.error .MissingKeyField hd.range)
               else strip s₂))
             (Diagnostic.warning .InvalidFieldOrder first.range)
         else
           hd.fields.foldl (fun s field =>
               match field.kind with
               | .ReferenceNumber => validateReferenceNumber s field
               | .Title =>
                 if (trim field.value).isEmpty then
                   report s (Diagnostic.warning .EmptyTitle field.range)
                 else s
               | .Meter => validateMeter s field
               | .Tempo => validateTempo s field
               | .UnitNoteLength => validateUnitNoteLength s field
               | .Key => validateKey s field
               | _ => s)
             (if (hd.fields.find? (fun f => f.kind = HeaderFieldKind.Title)).isNone then
               report (if (hd.fields.find?
                     (fun f => f.kind = HeaderFieldKind.Key)).isNone then
                   report (strip s₂) (Diagnostic.error .MissingKeyField hd.range)
                 else strip s₂) (Diagnostic.warning .MissingTitle hd.range)
             else
               if (hd.fields.find? (fun f => f.kind = HeaderFieldKind.Key)).isNone then
                 report (strip s₂) (Diagnostic.error .MissingKeyField hd.range)
               else strip s₂)
       | none =>
         hd.fields.foldl (fun s field =>
             match field.kind with
             | .ReferenceNumber => validateReferenceNumber s field
             | .Title =>
               if (trim field.value).isEmpty then
                 report s (Diagnostic.warning .EmptyTitle field.range)
               else s
             | .Meter => validateMeter s field
             | .Tempo => validateTempo s field
             | .UnitNoteLength => validateUnitNoteLength s field
             | .Key => validateKey s field
             | _ => s)
           (if (hd.fields.find? (fun f => f.kind = HeaderFieldKind.Title)).isNone then
             report (if (hd.fields.find?
                   (fun f => f.kind = HeaderFieldKind.Key)).isNone then
                 report (strip s₂) (Diagnostic.error .MissingKeyField hd.range)
               else strip s₂) (Diagnostic.warning .MissingTitle hd.range)
           else
             if (hd.fields.find? (fun f => f.kind = HeaderFieldKind.Key)).isNone then
               report (strip s₂) (Diagnostic.error .MissingKeyField hd.range)
             else strip s₂)) =
      strip (match hd.fields.head? with
       | some first =>
         if first.kind ≠ HeaderFieldKind.ReferenceNumber then
           report (hd.fields.foldl (fun s field =>
               match field.kind with
               | .ReferenceNumber => validateReferenceNumber s field
               | .Title =>
                 if (trim field.value).isEmpty then
                   report s (Diagnostic.warning .EmptyTitle field.range)
                 else s
               | .Meter => validateMeter s field
               | .Tempo => validateTempo s field
               | .UnitNoteLength => validateUnitNoteLength s field
               | .Key => validateKey s field
               | _ => s)
             (if (hd.fields.find? (fun f => f.kind = HeaderFieldKind.Title)).isNone then
               report (if (hd.fields.find?
                     (fun f => f.kind = HeaderFieldKind.Key)).isNone then
                   report s₂ (Diagnostic.error .MissingKeyField hd.range)
                 else s₂) (Diagnostic.warning .MissingTitle hd.range)
             else
               if (hd.fields.find? (fun f => f.kind = HeaderFieldKind.Key)).isNone then
                 report s₂ (Diagnostic.error .MissingKeyField hd.range)
               else s₂))
             (Diagnostic.warning .InvalidFieldOrder first.range)
         else
           hd.fields.foldl (fun s field =>
               match field.kind with
               | .ReferenceNumber => validateReferenceNumber s field
               | .Title =>
                 if (trim field.value).isEmpty then
                   report s (Diagnostic.warning .EmptyTitle field.range)
                 else s
               | .Meter => validateMeter s field
               | .Tempo => validateTempo s field
               | .UnitNoteLength => validateUnitNoteLength s field
               | .Key => validateKey s field
               | _ => s)
             (if (hd.fields.find? (fun f => f.kind = HeaderFieldKind.Title)).isNone then
               report (if (hd.fields.find?
                     (fun f => f.kind = HeaderFieldKind.Key)).isNone then
                   report s₂ (Diagnostic.error .MissingKeyField hd.range)
                 else s₂) (Diagnostic.warning .MissingTitle hd.range)
             else
               if (hd.fields.find? (fun f => f.kind = HeaderFieldKind.Key)).isNone then
                 report s₂ (Diagnostic.error .MissingKeyField hd.range)
               else s₂)
       | none =>
         hd.fields.foldl (fun s field =>
             match field.kind with
             | .ReferenceNumber => validateReferenceNumber s field
             | .Title =>
               if (trim field.value).isEmpty then
                 report s (Diagnostic.warning .EmptyTitle field.range)
               else s
             | .Meter => validateMeter s field
             | .Tempo => validateTempo s field
             | .UnitNoteLength => validateUnitNoteLength s field
             | .Key => validateKey s field
             | _ => s)
           (if (hd.fields.find? (fun f => f.kind = HeaderFieldKind.Title)).isNone then
             report (if (hd.fields.find?
                   (fun f => f.kind = HeaderFieldKind.Key)).isNone then
                 report s₂ (Diagnostic.error .MissingKeyField hd.range)
               else s₂) (Diagnostic.warning .MissingTitle hd.range)
           else
             if (hd.fields.find? (fun f => f.kind = HeaderFieldKind.Key)).isNone then
               report s₂ (Diagnostic.error .MissingKeyField hd.range)
             else s₂)) := by
    intro s₂
    have e₃₄ : (if (hd.fields.find?
          (fun f => f.kind = HeaderFieldKind.Title)).isNone then
        report (if (hd.fields.find?
              (fun f => f.kind = HeaderFieldKind.Key)).isNone then
            report (strip s₂) (Diagnostic.error .MissingKeyField hd.range)
          else strip s₂) (Diagnostic.warning .MissingTitle hd.range)
      else
        if (hd.fields.find? (fun f => f.kind = HeaderFieldKind.Key)).isNone then
          report (strip s₂) (Diagnostic.error .MissingKeyField hd.range)
        else strip s₂)
        = strip (if (hd.fields.find?
            (fun f => f.kind = HeaderFieldKind.Title)).isNone then
          report (if (hd.fields.find?
                (fun f => f.kind = HeaderFieldKind.Key)).isNone then
              report s₂ (Diagnostic.error .MissingKeyField hd.range)
            else s₂) (Diagnostic.warning .MissingTitle hd.range)
        else
          if (hd.fields.find? (fun f => f.kind = HeaderFieldKind.Key)).isNone then
            report s₂ (Diagnostic.error .MissingKeyField hd.range)
          else s₂) := by
      split_ifs <;> simp [report_strip, strip_report]
    rw [e₃₄, validateFields_foldl_strip]
    cases hh : hd.fields.head? with
    | none => rfl
    | some first =>
      simp only
      split_ifs <;> simp [report_strip, strip_report]
  cases hxf : hd.fields.filter (fun f => f.kind = HeaderFieldKind.ReferenceNumber) with
  | nil =>
    simp only [hxf]
    exact tail s₁
  | cons first dups =>
    simp only [hxf]
    rw [dupRef_foldl_strip]
    exact tail _

theorem parseAccidental_strip (st : PState) :
    parseAccidental (strip st) =
      ((parseAccidental st).1, strip (parseAccidental st).2) := by
  unfold parseAccidental
  rw [peek_strip]
  cases hp : peek st with
  | none => simp only [hp]
  | some token =>
    simp only [hp]
    cases token.kind <;> simp only
    case Sharp =>
      rw [advance_strip]
      dsimp only
      rw [check_strip]
      split_ifs with h
      · rw [advance_strip]
      · rfl
    case Flat =>
      rw [advance_strip]
      dsimp only
      rw [check_strip]
      split_ifs with h
      · rw [advance_strip]
      · rfl
    case Natural => rw [advance_strip]
    all_goals rfl

theorem octaveModsGo_strip (ts : List Token) (o : Int) (st : PState) :
    octaveModsGo ts o (strip st) =
      ((octaveModsGo ts o st).1, strip (octaveModsGo ts o st).2) := by
  induction ts generalizing o st with
  | nil => rfl
  | cons t rest ih =>
    unfold octaveModsGo
    cases t.kind <;> first
    | rfl
    | (dsimp only
       rw [stripBump, ih]
       try rfl)

theorem octaveMods_strip (st : PState) (o : Int) :
    octaveMods (strip st) o =
      ((octaveMods st o).1, strip (octaveMods st o).2) := by
  unfold octaveMods
  rw [show (strip st).tokens.drop (strip st).position =
      st.tokens.drop st.position from rfl]
  exact octaveModsGo_strip _ _ _

theorem pduFinish_strip (st : PState) (ns : Option Nat)
    (dS n d : Nat) (b : Bool) :
    pduFinish (strip st) ns dS n d b =
      ((pduFinish st ns dS n d b).1, strip (pduFinish st ns dS n d b).2) := by
  unfold pduFinish
  cases ns <;>
    (dsimp only
     split_ifs <;> simp [report_strip, strip_report, currentPosition_strip])

theorem pduSlash_strip (st : PState) (ns : Option Nat)
    (dS n : Nat) (b : Bool) :
    pduSlash (strip st) ns dS n b =
      ((pduSlash st ns dS n b).1, strip (pduSlash st ns dS n b).2) := by
  unfold pduSlash
  rw [check_strip]
  split_ifs with h1
  · rw [advance_strip]
    dsimp only
    rw [check_strip]
    split_ifs with h2
    · rw [advance_strip]
      rcases hA : advance (advance st).2 with ⟨o, st₂⟩
      dsimp only
      cases o with
      | none => rfl
      | some token =>
        dsimp only
        rw [tokenText_strip]
        cases hp : parseU32 (tokenText st₂ token) with
        | none => simp only [hp]; exact pduFinish_strip _ _ _ _ _ _
        | some d =>
          simp only [hp]
          split_ifs with h3
          · rw [currentPosition_strip, report_strip,
              show strip st₂ = strip (report st₂ (Diagnostic.error
                .InvalidDuration ⟨dS, currentPosition st₂⟩)) from
                (strip_report _ _).symm]
            exact pduFinish_strip _ _ _ _ _ _
          · exact pduFinish_strip _ _ _ _ _ _
    · exact pduFinish_strip _ _ _ _ _ _
  · exact pduFinish_strip _ _ _ _ _ _

theorem parseDurationInternal_strip (st : PState) (ns : Option Nat) :
    parseDurationInternal (strip st) ns =
      ((parseDurationInternal st ns).1,
       strip (parseDurationInternal st ns).2) := by
  unfold parseDurationInternal
  dsimp only
  rw [currentPosition_strip, check_strip]
  split_ifs with h
  · rw [advance_strip]
    rcases hA : advance st with ⟨o, st₁⟩
    dsimp only
    cases o with
    | none => rfl
    | some token =>
      dsimp only
      rw [tokenText_strip]
      cases hp : parseU32 (tokenText st₁ token) <;> simp only [hp] <;>
        exact pduSlash_strip _ _ _ _ _
  · exact pduSlash_strip _ _ _ _ _

theorem parseNote_strip (st : PState) :
    parseNote (strip st) = ((parseNote st).1, strip (parseNote st).2) := by
  unfold parseNote
  try dsimp only
  rw [currentPosition_strip, parseAccidental_strip]
  try dsimp only
  rw [advance_strip]
  rcases hA : advance (parseAccidental st).2 with ⟨o, st₁⟩
  try dsimp only
  cases o with
  | none => rfl
  | some token =>
    try dsimp only
    split_ifs with h
    · rfl
    · rw [tokenText_strip]
      cases hh : (tokenText st₁ token).head? with
      | none => simp only [hh]
      | some noteChar =>
        simp only [hh]
        cases hpc : Pitch.fromChar noteChar with
        | none => simp only [hpc]; simp [report_strip, strip_report]
        | some pb =>
          simp only [hpc]
          try dsimp only
          rw [octaveMods_strip]
          try dsimp only
          rw [currentPosition_strip]
          split_ifs with h2
          · rw [report_strip,
              show strip (octaveMods st₁ pb.2).2 =
                strip (report (octaveMods st₁ pb.2).2
                  (Diagnostic.warning .UnusualOctave
                    ⟨currentPosition st,
                     currentPosition (octaveMods st₁ pb.2).2⟩)) from
                (strip_report _ _).symm,
              parseDurationInternal_strip]
            try dsimp only
            rw [currentPosition_strip]
          · rw [parseDurationInternal_strip]
            try dsimp only
            rw [currentPosition_strip]

theorem parseRest_strip (st : PState) :
    parseRest (strip st) = ((parseRest st).1, strip (parseRest st).2) := by
  unfold parseRest
  try dsimp only
  rw [currentPosition_strip, advance_strip]
  rcases hA : advance st with ⟨o, st₁⟩
  try dsimp only
  cases o with
  | none => rfl
  | some token =>
    try dsimp only
    split_ifs with h
    · rfl
    · rw [tokenText_strip, parseDurationInternal_strip]
      try dsimp only
      rw [currentPosition_strip]

theorem parseBarLine_strip (st : PState) :
    parseBarLine (strip st) = ((parseBarLine st).1, strip (parseBarLine st).2) := by
  unfold parseBarLine
  rw [advance_strip]
  rcases hA : advance st with ⟨o, st₁⟩
  try dsimp only
  cases o with
  | none => rfl
  | some token =>
    try dsimp only
    cases token.kind <;> rfl

theorem parseBrokenRhythm_strip (st : PState) :
    parseBrokenRhythm (strip st) =
      ((parseBrokenRhythm st).1, strip (parseBrokenRhythm st).2) := by
  unfold parseBrokenRhythm
  rw [advance_strip]
  rcases hA : advance st with ⟨o, st₁⟩
  try dsimp only
  cases o with
  | none => rfl
  | some token =>
    try dsimp only
    split_ifs with h
    · rfl
    · rw [tokenText_strip]

theorem parseTie_strip (st : PState) :
    parseTie (strip st) = ((parseTie st).1, strip (parseTie st).2) := by
  unfold parseTie
  rw [advance_strip]
  rcases hA : advance st with ⟨o, st₁⟩
  try dsimp only
  cases o with
  | none => rfl
  | some token =>
    try dsimp only
    split_ifs with h <;> rfl

theorem inlineValueGo_strip (ts : List Token) (st : PState) :
    inlineValueGo ts (strip st) = strip (inlineValueGo ts st) := by
  induction ts generalizing st with
  | nil => rfl
  | cons t rest ih =>
    unfold inlineValueGo
    split_ifs <;> first
    | rfl
    | (rw [stripBump]
       exact ih _)

theorem parseInlineField_strip (st : PState) :
    parseInlineField (strip st) =
      ((parseInlineField st).1, strip (parseInlineField st).2) := by
  unfold parseInlineField
  try dsimp only
  rw [currentPosition_strip, peek_strip]
  cases hp : peek st with
  | none => simp only [hp]
  | some opTok =>
    simp only [hp]
    rw [check_strip]
    by_cases h1 : check st TokenKind.LeftBracket = true
    · simp only [if_neg (show ¬¬check st TokenKind.LeftBracket = true by
        simp [h1])]
      rw [advance_strip]
      try dsimp only
      rw [skipWhitespaceOnly_strip, advance_strip]
      rcases hA : advance (skipWhitespaceOnly (advance st).2) with ⟨o, st₃⟩
      try dsimp only
      cases o with
      | none =>
        try dsimp only
        try rfl
      | some labelTok =>
        try dsimp only
        by_cases h2 : labelTok.kind = TokenKind.FieldLabel
        · simp only [if_neg (show ¬labelTok.kind ≠ TokenKind.FieldLabel by
            simp [h2])]
          rw [tokenText_strip]
          cases hh : (tokenText st₃ labelTok).head? with
          | none => simp only [hh]
          | some label =>
            simp only [hh]
            try dsimp only
            rw [skipWhitespaceOnly_strip, check_strip]
            by_cases h3 : check (skipWhitespaceOnly st₃) TokenKind.Colon = true
            · simp only [if_neg (show
                ¬¬check (skipWhitespaceOnly st₃) TokenKind.Colon = true by
                simp [h3])]
              rw [advance_strip]
              try dsimp only
              rw [currentPosition_strip,
                show (strip (advance (skipWhitespaceOnly st₃)).2).tokens.drop
                    (strip (advance (skipWhitespaceOnly st₃)).2).position =
                  (advance (skipWhitespaceOnly st₃)).2.tokens.drop
                    (advance (skipWhitespaceOnly st₃)).2.position from rfl,
                inlineValueGo_strip]
              rw [currentPosition_strip,
                show (strip (inlineValueGo
                    ((advance (skipWhitespaceOnly st₃)).2.tokens.drop
                      (advance (skipWhitespaceOnly st₃)).2.position)
                    (advance (skipWhitespaceOnly st₃)).2)).source =
                  (inlineValueGo
                    ((advance (skipWhitespaceOnly st₃)).2.tokens.drop
                      (advance (skipWhitespaceOnly st₃)).2.position)
                    (advance (skipWhitespaceOnly st₃)).2).source from rfl,
                check_strip]
              by_cases h4 : check (inlineValueGo
                  ((advance (skipWhitespaceOnly st₃)).2.tokens.drop
                    (advance (skipWhitespaceOnly st₃)).2.position)
                  (advance (skipWhitespaceOnly st₃)).2)
                  TokenKind.RightBracket = true
              · simp only [if_pos h4]
                rw [advance_strip]
                try dsimp only
                rw [currentPosition_strip]
              · simp only [if_neg h4]
                rw [report_strip]
                rw [show strip (inlineValueGo
                      ((advance (skipWhitespaceOnly st₃)).2.tokens.drop
                        (advance (skipWhitespaceOnly st₃)).2.position)
                      (advance (skipWhitespaceOnly st₃)).2) =
                    strip (report (inlineValueGo
                      ((advance (skipWhitespaceOnly st₃)).2.tokens.drop
                        (advance (skipWhitespaceOnly st₃)).2.position)
                      (advance (skipWhitespaceOnly st₃)).2)
                      ((Diagnostic.error .UnclosedInlineField
                        ⟨currentPosition st,
                         currentPosition (inlineValueGo
                          ((advance (skipWhitespaceOnly st₃)).2.tokens.drop
                            (advance (skipWhitespaceOnly st₃)).2.position)
                          (advance (skipWhitespaceOnly st₃)).2)⟩).withLabel
                        opTok.range)) from (strip_report _ _).symm]
                rw [currentPosition_strip]
            · simp only [if_pos h3]
              try rfl
        · simp only [if_pos h2]
          try rfl
    · simp only [if_pos h1]
      try rfl

/-- `report` against a sink-less state commutes with `strip`. -/
theorem report_comm (st : PState) (d : Diagnostic) :
    report (strip st) d = strip (report st d) := by
  rw [report_strip, strip_report]

theorem parseChordLoop_strip (fuel : Nat) :
    ∀ (st : PState) (notes : List Note),
      parseChordLoop fuel (strip st) notes =
        ((parseChordLoop fuel st notes).1,
         strip (parseChordLoop fuel st notes).2) := by
  induction fuel with
  | zero => intro st notes; rfl
  | succ fuel ih =>
    intro st notes
    simp only [parseChordLoop]
    simp only [isAtEnd_strip, check_strip, isRecoveryPoint_strip]
    split_ifs with h1 h2 h3 h4
    · rw [handleErrorTokens_strip]
      exact ih _ _
    · rfl
    · rfl
    · rw [parseNote_strip]
      rcases hN : parseNote st with ⟨o, st₁⟩
      try dsimp only
      cases o with
      | none =>
        try dsimp only
        rw [advance_strip]
        try dsimp only
        exact ih _ _
      | some note =>
        try dsimp only
        exact ih _ _
    · rfl

theorem parseChord_strip (fuel : Nat) (st : PState) :
    parseChord fuel (strip st) =
      ((parseChord fuel st).1, strip (parseChord fuel st).2) := by
  unfold parseChord
  try dsimp only
  rw [currentPosition_strip, peek_strip]
  cases hp : peek st with
  | none => simp only [hp]; try rfl
  | some opTok =>
    simp only [hp]
    rw [check_strip]
    by_cases h1 : check st TokenKind.LeftBracket = true
    · simp only [if_neg (show ¬¬check st TokenKind.LeftBracket = true by
        simp [h1])]
      rw [advance_strip]
      try dsimp only
      rw [parseChordLoop_strip]
      try dsimp only
      rw [check_strip]
      by_cases h2 : check (parseChordLoop fuel (advance st).2 []).2
          TokenKind.RightBracket = true
      · simp only [if_pos h2]
        rw [advance_strip]
        try dsimp only
        split_ifs with h3 <;>
          simp only [currentPosition_strip, report_comm,
            parseDurationInternal_strip] <;>
          try rfl
      · simp only [if_neg h2]
        simp only [currentPosition_strip, report_comm, Bool.false_eq_true,
          and_false, if_false, parseDurationInternal_strip]
        try rfl
    · simp only [if_pos h1]
      try rfl

theorem parseGraceLoop_strip (fuel : Nat) :
    ∀ (st : PState) (notes : List Note),
      parseGraceLoop fuel (strip st) notes =
        ((parseGraceLoop fuel st notes).1,
         strip (parseGraceLoop fuel st notes).2) := by
  induction fuel with
  | zero => intro st notes; rfl
  | succ fuel ih =>
    intro st notes
    simp only [parseGraceLoop]
    simp only [isAtEnd_strip, check_strip]
    rw [handleErrorTokens_strip]
    simp only [isRecoveryPoint_strip, check_strip]
    split_ifs with h1 h2 h3
    · rfl
    · rfl
    · rw [parseNote_strip]
      rcases hN : parseNote (handleErrorTokens st) with ⟨o, st₁⟩
      try dsimp only
      cases o with
      | none =>
        try dsimp only
        rw [advance_strip]
        try dsimp only
        exact ih _ _
      | some note =>
        try dsimp only
        exact ih _ _
    · rfl

theorem parseGraceNotes_strip (fuel : Nat) (st : PState) :
    parseGraceNotes fuel (strip st) =
      ((parseGraceNotes fuel st).1, strip (parseGraceNotes fuel st).2) := by
  unfold parseGraceNotes
  try dsimp only
  rw [currentPosition_strip, peek_strip]
  cases hp : peek st with
  | none => simp only [hp]; try rfl
  | some opTok =>
    simp only [hp]
    rw [check_strip]
    by_cases h1 : check st TokenKind.LeftBrace = true
    · simp only [if_neg (show ¬¬check st TokenKind.LeftBrace = true by
        simp [h1])]
      rw [advance_strip]
      try dsimp only
      rw [parseGraceLoop_strip]
      try dsimp only
      rw [check_strip]
      by_cases h2 : check (parseGraceLoop fuel (advance st).2 []).2
          TokenKind.RightBrace = true
      · simp only [if_pos h2]
        rw [advance_strip]
        try dsimp only
        rw [currentPosition_strip]
      · simp only [if_neg h2]
        rw [currentPosition_strip, report_strip,
          show strip (parseGraceLoop fuel (advance st).2 []).2 =
            strip (report (parseGraceLoop fuel (advance st).2 []).2
              ((Diagnostic.error .UnclosedGraceNotes
                ⟨currentPosition st,
                 currentPosition (parseGraceLoop fuel (advance st).2 []).2⟩).withLabel
                opTok.range)) from (strip_report _ _).symm,
          currentPosition_strip]
    · simp only [if_pos h1]
      try rfl

theorem parseTupletNotes_strip (k : Nat) :
    ∀ (st : PState) (notes : List Note),
      parseTupletNotes k (strip st) notes =
        ((parseTupletNotes k st notes).1,
         strip (parseTupletNotes k st notes).2) := by
  induction k with
  | zero => intro st notes; rfl
  | succ k ih =>
    intro st notes
    simp only [parseTupletNotes]
    rw [skipTrivia_strip, handleErrorTokens_strip, parseNote_strip]
    rcases hN : parseNote (handleErrorTokens (skipTrivia st)) with ⟨o, st₁⟩
    try dsimp only
    cases o with
    | none => rfl
    | some note =>
      try dsimp only
      exact ih _ _

theorem parseTuplet_strip (st : PState) :
    parseTuplet (strip st) = ((parseTuplet st).1, strip (parseTuplet st).2) := by
  unfold parseTuplet
  try dsimp only
  rw [currentPosition_strip, advance_strip]
  rcases hA : advance st with ⟨o, st₁⟩
  try dsimp only
  cases o with
  | none => try rfl
  | some token =>
    try dsimp only
    by_cases h1 : token.kind = TokenKind.Tuplet
    · simp only [if_neg (show ¬token.kind ≠ TokenKind.Tuplet by simp [h1])]
      rw [tokenText_strip, parseTupletNotes_strip]
      try dsimp only
      split_ifs with h2 h3 h4 <;>
        simp only [currentPosition_strip, report_comm] <;> try rfl
    · simp only [if_pos h1]
      try rfl

/-- Joint sink-irrelevance of the mutually recursive element/slur
parsers. -/
theorem museSim_strip (fuel : Nat) :
    (∀ st : PState, parseMusicElement fuel (strip st) =
       ((parseMusicElement fuel st).1, strip (parseMusicElement fuel st).2)) ∧
    (∀ (st : PState) (elements : List MusicElement),
       parseSlurLoop fuel (strip st) elements =
         ((parseSlurLoop fuel st elements).1,
          strip (parseSlurLoop fuel st elements).2)) ∧
    (∀ st : PState, parseSlur fuel (strip st) =
       ((parseSlur fuel st).1, strip (parseSlur fuel st).2)) := by
  induction fuel with
  | zero => exact ⟨fun st => rfl, fun st el => rfl, fun st => rfl⟩
  | succ fuel ih =>
    obtain ⟨ihM, ihL, ihS⟩ := ih
    refine ⟨?_, ?_, ?_⟩
    · intro st
      simp only [parseMusicElement]
      rw [skipTrivia_strip, peek_strip]
      cases hp : peek (skipTrivia st) with
      | none => simp only [hp]; try rfl
      | some token =>
        simp only [hp]
        cases token.kind <;> try dsimp only
        all_goals first
        | rfl
        | (rw [parseNote_strip]; try dsimp only; rfl)
        | (rw [parseRest_strip]; try dsimp only; rfl)
        | (rw [parseBarLine_strip]; try dsimp only; rfl)
        | (rw [parseTuplet_strip]; try dsimp only; rfl)
        | (rw [ihS]; try dsimp only; rfl)
        | (rw [parseGraceNotes_strip]; try dsimp only; rfl)
        | (rw [parseBrokenRhythm_strip]; try dsimp only; rfl)
        | (rw [parseTie_strip]; try dsimp only; rfl)
        | (rw [isInlineField_strip]
           split_ifs with h
           · rw [parseInlineField_strip]; try dsimp only; rfl
           · rw [parseChord_strip]; try dsimp only; rfl)
    · intro st elements
      simp only [parseSlurLoop]
      simp only [isAtEnd_strip, check_strip]
      rw [handleErrorTokens_strip]
      simp only [isRecoveryPoint_strip]
      split_ifs with h1 h2
      · rfl
      · rw [ihM]
        rcases hM : parseMusicElement fuel (handleErrorTokens st) with ⟨o, st₁⟩
        try dsimp only
        cases o with
        | some e =>
          try dsimp only
          exact ihL _ _
        | none =>
          try dsimp only
          simp only [check_strip]
          split_ifs with h3 h4
          · rw [advance_strip]
            rcases hA : advance st₁ with ⟨o₂, st₂⟩
            try dsimp only
            cases o₂ with
            | some t =>
              try dsimp only
              rw [report_comm]
              exact ihL _ _
            | none =>
              try dsimp only
              exact ihL _ _
          · rw [advance_strip]
            rcases hA : advance st₁ with ⟨o₂, st₂⟩
            try dsimp only
            cases o₂ with
            | some t =>
              try dsimp only
              rw [report_comm]
              exact ihL _ _
            | none =>
              try dsimp only
              exact ihL _ _
          · rw [advance_strip]
            try dsimp only
            exact ihL _ _
      · rfl
    · intro st
      simp only [parseSlur]
      try dsimp only
      rw [currentPosition_strip, peek_strip]
      cases hp : peek st with
      | none => simp only [hp]; try rfl
      | some opTok =>
        simp only [hp]
        rw [check_strip]
        by_cases h1 : check st TokenKind.LeftParen = true
        · simp only [if_neg (show ¬¬check st TokenKind.LeftParen = true by
            simp [h1])]
          rw [advance_strip]
          try dsimp only
          rw [ihL]
          try dsimp only
          simp only [check_strip]
          by_cases h2 : check (parseSlurLoop fuel (advance st).2 []).2
              TokenKind.RightParen = true
          · simp only [if_pos h2]
            rw [advance_strip]
            try dsimp only
            rw [currentPosition_strip]
            try rfl
          · simp only [if_neg h2]
            simp only [currentPosition_strip, report_comm]
            try rfl
        · simp only [if_pos h1]
          try rfl

theorem parseBodyLoop_strip (fuel : Nat) :
    ∀ (st : PState) (elements : List MusicElement),
      parseBodyLoop fuel (strip st) elements =
        ((parseBodyLoop fuel st elements).1,
         strip (parseBodyLoop fuel st elements).2) := by
  induction fuel with
  | zero => intro st el; rfl
  | succ fuel ih =>
    intro st el
    simp only [parseBodyLoop]
    simp only [isAtEnd_strip]
    rw [skipTrivia_strip, handleErrorTokens_strip]
    simp only [check_strip]
    by_cases h1 : isAtEnd st = true
    · simp only [if_neg (show ¬¬isAtEnd st = true by simp [h1])]
      try rfl
    · simp only [if_pos h1]
      by_cases h2 : check (handleErrorTokens (skipTrivia st))
          TokenKind.FieldLabel = true
      · simp only [if_pos h2]
        rw [advance_strip]
        rcases hA : advance (handleErrorTokens (skipTrivia st)) with ⟨o, st₁⟩
        try dsimp only
        cases o with
        | none =>
          try dsimp only
          exact ih _ _
        | some token =>
          try dsimp only
          rw [report_comm, skipTrivia_strip]
          simp only [check_strip]
          by_cases h7 : check (skipTrivia (report st₁
              (Diagnostic.warning .UnexpectedToken token.range)))
              TokenKind.Colon = true
          · simp only [if_pos h7]
            rw [advance_strip]
            try dsimp only
            rw [collectUntilNewline_strip]
            try dsimp only
            exact ih _ _
          · simp only [if_neg h7]
            rw [collectUntilNewline_strip]
            try dsimp only
            exact ih _ _
      · simp only [if_neg h2]
        by_cases h3 : check (handleErrorTokens (skipTrivia st))
            TokenKind.RightBracket = true
        · simp only [if_pos h3]
          rw [advance_strip]
          rcases hA : advance (handleErrorTokens (skipTrivia st)) with ⟨o, st₁⟩
          try dsimp only
          cases o with
          | none =>
            try dsimp only
            exact ih _ _
          | some token =>
            try dsimp only
            rw [report_comm]
            exact ih _ _
        · simp only [if_neg h3]
          by_cases h4 : check (handleErrorTokens (skipTrivia st))
              TokenKind.RightParen = true
          · simp only [if_pos h4]
            rw [advance_strip]
            rcases hA : advance (handleErrorTokens (skipTrivia st)) with ⟨o, st₁⟩
            try dsimp only
            cases o with
            | none =>
              try dsimp only
              exact ih _ _
            | some token =>
              try dsimp only
              rw [report_comm]
              exact ih _ _
          · simp only [if_neg h4]
            by_cases h5 : check (handleErrorTokens (skipTrivia st))
                TokenKind.RightBrace = true
            · simp only [if_pos h5]
              rw [advance_strip]
              rcases hA : advance (handleErrorTokens (skipTrivia st)) with
                ⟨o, st₁⟩
              try dsimp only
              cases o with
              | none =>
                try dsimp only
                exact ih _ _
              | some token =>
                try dsimp only
                rw [report_comm]
                exact ih _ _
            · simp only [if_neg h5]
              by_cases h6 : check (handleErrorTokens (skipTrivia st))
                  TokenKind.Newline = true
              · simp only [if_pos h6]
                rw [advance_strip]
                try dsimp only
                exact ih _ _
              · simp only [if_neg h6]
                rw [bigFuel_strip, (museSim_strip _).1]
                rcases hM : parseMusicElement
                    (bigFuel (handleErrorTokens (skipTrivia st)))
                    (handleErrorTokens (skipTrivia st)) with ⟨o, st₁⟩
                try dsimp only
                cases o with
                | some e =>
                  try dsimp only
                  exact ih _ _
                | none =>
                  try dsimp only
                  simp only [isAtEnd_strip, check_strip]
                  split_ifs with h7
                  · rw [advance_strip]
                    try dsimp only
                    exact ih _ _
                  · exact ih _ _

theorem parseBody_strip (st : PState) :
    parseBody (strip st) = ((parseBody st).1, strip (parseBody st).2) := by
  unfold parseBody
  try dsimp only
  rw [currentPosition_strip,
    show (strip st).tokens.length = st.tokens.length from rfl,
    parseBodyLoop_strip]
  try dsimp only
  rw [currentPosition_strip]

theorem parseHeaderField_strip (st : PState) :
    parseHeaderField (strip st) =
      ((parseHeaderField st).1, strip (parseHeaderField st).2) := by
  unfold parseHeaderField
  try dsimp only
  rw [currentPosition_strip, advance_strip]
  rcases hA : advance st with ⟨o, st₁⟩
  try dsimp only
  cases o with
  | none => try rfl
  | some labelToken =>
    try dsimp only
    by_cases h1 : labelToken.kind = TokenKind.FieldLabel
    · simp only [if_neg (show ¬labelToken.kind ≠ TokenKind.FieldLabel by
        simp [h1])]
      rw [tokenText_strip]
      cases hh : (tokenText st₁ labelToken).head? with
      | none => simp only [hh]; try rfl
      | some c =>
        simp only [hh]
        try dsimp only
        rw [skipTrivia_strip]
        simp only [check_strip]
        by_cases h2 : check (skipTrivia st₁) TokenKind.Colon = true
        · simp only [if_neg (show
            ¬¬check (skipTrivia st₁) TokenKind.Colon = true by simp [h2])]
          rw [advance_strip]
          try dsimp only
          simp only [skipWhitespaceOnly_strip, collectUntilNewline_strip,
            skipNewlines_strip, currentPosition_strip]
          try rfl
        · simp only [if_pos h2]
          try rfl
    · simp only [if_pos h1]
      try rfl

theorem parseHeaderLoop_strip (fuel : Nat) :
    ∀ (st : PState) (fields : List HeaderField),
      parseHeaderLoop fuel (strip st) fields =
        ((parseHeaderLoop fuel st fields).1,
         strip (parseHeaderLoop fuel st fields).2) := by
  induction fuel with
  | zero => intro st fs; rfl
  | succ fuel ih =>
    intro st fs
    simp only [parseHeaderLoop]
    simp only [isAtEnd_strip]
    rw [skipTrivia_strip, handleErrorTokens_strip]
    simp only [check_strip]
    by_cases h1 : isAtEnd st = true
    · simp only [if_neg (show ¬¬isAtEnd st = true by simp [h1])]
      try rfl
    · simp only [if_pos h1]
      by_cases h2 : check (handleErrorTokens (skipTrivia st))
          TokenKind.FieldLabel = true
      · simp only [if_pos h2]
        rw [parseHeaderField_strip]
        rcases hF : parseHeaderField (handleErrorTokens (skipTrivia st)) with
          ⟨o, st₁⟩
        try dsimp only
        cases o with
        | none =>
          try dsimp only
          exact ih _ _
        | some field =>
          try dsimp only
          split_ifs with h3
          · rw [skipNewlines_strip]
          · exact ih _ _
      · simp only [if_neg h2]
        try rfl

theorem parseHeader_strip (st : PState) :
    parseHeader (strip st) = ((parseHeader st).1, strip (parseHeader st).2) := by
  unfold parseHeader
  try dsimp only
  rw [currentPosition_strip,
    show (strip st).tokens.length = st.tokens.length from rfl,
    parseHeaderLoop_strip]
  try dsimp only
  rw [currentPosition_strip]

theorem parserParse_strip (st : PState) :
    parserParse (strip st) = ((parserParse st).1, strip (parserParse st).2) := by
  unfold parserParse
  try dsimp only
  rw [currentPosition_strip, handleErrorTokens_strip, parseHeader_strip]
  try dsimp only
  rw [validateHeader_strip, parseBody_strip]
  try dsimp only
  rw [currentPosition_strip]
  split_ifs with h
  · simp only [report_comm]
    try rfl
  · try rfl

/-- C10: the sink-less entry point `parse` returns exactly the tune
component of `parse_with_diagnostics` — the presence or absence of a
diagnostic sink never changes the constructed semantic tree. -/
theorem claim10_sink_irrelevance :
    ∀ source : List Char, parse source = (parseWithDiagnostics source).1 := by
  intro source
  unfold parse parseWithDiagnostics
  try dsimp only
  rw [show (⟨source, tokenize source, 0, none⟩ : PState) =
      strip ⟨source, tokenize source, 0, some []⟩ from rfl,
    parserParse_strip]
